import Mathlib

/-!
Verification development for the `cas-to-HSPiP_data` repository.

The repository has two Python source files:

* `HSPiP_CLI_v7.py` — a batch pipeline that drives the HSPiP command-line
  tool over a list of SMILES strings, with per-item retries, a two-round
  escalation for items whose output could not be read, periodic
  checkpointing, and final assembly of a result table in original input
  order.
* `get_smiles_InChI_IUPAC_props.py` — a small PubChem PUG-REST client that
  resolves a CAS number to a CID and fetches a fixed list of properties,
  returning a dictionary (or an `{'Error': ...}` dictionary on failure),
  printed by a thin CLI.

The definitions below are a shallow embedding of both programs.  External
effects (RDKit canonicalization, the HSPiP subprocess, reads of `Out.dat`,
HTTP fetches) are modelled as oracle functions supplied as parameters; all
other control flow is translated directly from the source.  Events that the
program performs (canonicalization calls, script creation/removal, tool
invocations, output-read attempts, sleeps, checkpoint saves) are recorded in
an explicit trace so that pacing and cadence properties can be stated.
-/

namespace HSPiP

/-- The fixed 61-column property schema used by `save_intermediate_results`
(lines 100–110), the output reader (lines 212–220), the final assembly
(lines 316–326) and the empty-results table (lines 341–349) of
`HSPiP_CLI_v7.py`.  All four sites spell out the identical column list. -/
def hspColumns : List String :=
  ["HSPiP_SMILES", "Formula", "D", "P", "H", "HDon", "HAcc", "MWt", "Density", "MVol",
   "Area", "Ovality", "BPt", "MPt", "Tc", "Pc", "Vc", "Zc", "AntA", "AntB",
   "AntC", "Ant1T", "LogKow", "LogS", "Henry", "LogOHR", "RI", "Hfus", "HvBPt",
   "Trouton", "RER", "Abra", "Abrb", "EdmiW", "Parachor", "RD", "Cp", "log",
   "Cond", "SurfTen", "HeavyAtom", "C", "H1", "Br", "Cl", "F", "I", "N", "O",
   "P1", "S", "Si", "B", "MaxPc", "MinMc", "Sym", "MCI", "Hcomb", "Hform",
   "Gform", "FGList"]

/-- A property record: one row of cells as read from `Out.dat`
(`opts.iloc[0]`, line 221).  A cell is `none` for a missing value (NaN). -/
abbrev Rec := List (Option String)

/-- The all-missing placeholder row built from
`pd.DataFrame({col: [np.nan] for col in [...]})` (lines 100–110 and
316–326): one NaN cell per schema column. -/
def emptyRow : Rec := hspColumns.map (fun _ => none)

/-- Lines 89–91 (and identically 305–307): `ordered_results = [None] *
len(original_smiles)` followed by `ordered_results[original_index] = df` for
each `(df, original_index)` pair. -/
def orderedResults (allHspFull : List (Rec × Nat)) (n : Nat) : List (Option Rec) :=
  allHspFull.foldl (fun acc p => acc.set p.2 (some p.1)) (List.replicate n none)

/-- The shared body of `save_intermediate_results` (lines 88–113) and the
final assembly (lines 303–329): scatter the collected `(df, original_index)`
pairs into a sparse array, then walk the original SMILES list in order,
pairing each raw input string with its real record or with the all-missing
placeholder row. -/
def assembleResultsTable (allHspFull : List (Rec × Nat)) (originalSmiles : List String) :
    List (String × Rec) :=
  let ordered := orderedResults allHspFull originalSmiles.length
  originalSmiles.enum.map (fun p =>
    match ordered.getD p.1 none with
    | some df => (p.2, df)
    | none => (p.2, emptyRow))

/-- Observable actions performed by the pipeline, recorded in order.
`sleep` carries the duration in seconds; `saveIntermediate` carries the
batch count passed to `save_intermediate_results`; `pauseBetweenBatches` is
the fixed 10-second inter-batch pause of line 272. -/
inductive Event where
  | canonCall (smi : String)
  | createScript (path : String)
  | invoke (path : String)
  | readAttempt (k : Nat)
  | sleep (secs : Nat)
  | removeScript (path : String)
  | clearClipboard
  | pauseBetweenBatches
  | saveIntermediate (batchCount : Nat)
deriving DecidableEq, Repr

/-- Outcome of one inspection of the tool's output file `Out.dat`
(lines 209–231): the file is missing or empty (line 229), reading or
row-extraction raised (line 226), or a record was parsed (lines 212–225). -/
inductive ReadOutcome where
  | missingOrEmpty
  | readError
  | success (r : Rec)
deriving DecidableEq, Repr

/-- The external world seen by one attempt of the per-item retry loop:
whether `subprocess.run` (line 205) completes without raising, and the
outcome of each output-read try `k` of the inner loop (lines 209–231). -/
structure AttemptWorld where
  invokeOk : Bool
  reads : Nat → ReadOutcome

/-- Configuration constants of lines 280–284. -/
structure Config where
  batchSize : Nat
  maxRetries : Nat
  maxOutputRetries : Nat
  retryDelay : Nat
  clipboardDelay : Nat
deriving DecidableEq, Repr

/-- `batch_size = 100`, `max_retries = 3`, `max_output_retries = 3`,
`retry_delay = 2`, `clipboard_delay = 2` (lines 280–284). -/
def defaultConfig : Config :=
  { batchSize := 100, maxRetries := 3, maxOutputRetries := 3, retryDelay := 2, clipboardDelay := 2 }

/-- State threaded through one call of `process_smiles_batch`:
the function-local accumulators `all_hsp_full` (line 177) and
`failed_output_smiles` (line 178), the module-global list
`invalid_smiles_indices` (line 151, mutated at lines 196, 240, 255), the
function-local variable `batch_file_path` (`none` while the name is still
unassigned, which matters for the `finally` block of lines 245–248), the set
of temporary script files currently existing on disk, and the event trace. -/
structure RoundState where
  allHspFull : List (Rec × Nat)
  failedOutputSmiles : List (String × Nat)
  invalidSmilesIndices : List Nat
  batchFilePath : Option String
  scripts : List String
  trace : List Event
deriving DecidableEq, Repr

/-- A fresh state for a call of `process_smiles_batch` with the given
incoming global `invalid_smiles_indices` and pre-existing script files. -/
def initState (invalidIn : List Nat) (scriptsIn : List String) : RoundState :=
  { allHspFull := []
    failedOutputSmiles := []
    invalidSmilesIndices := invalidIn
    batchFilePath := none
    scripts := scriptsIn
    trace := [] }

/-- The only crash modelled inside `process_smiles_batch`: the `finally`
block (lines 245–248) evaluates `batch_file_path` before the name has ever
been assigned (possible when the very first attempt of a round aborts at
line 197, before line 200 runs), raising `UnboundLocalError`. -/
inductive Crash where
  | unboundLocal
deriving DecidableEq, Repr

/-- `os.path.join(os.getcwd(), f'temp_hspip_{original_index}.bat')`
(line 200); the constant working directory prefix is omitted. -/
def scriptPath (originalIndex : Nat) : String :=
  s!"temp_hspip_{originalIndex}.bat"

/-- The `finally` block of lines 245–248: `if os.path.exists(batch_file_path):
os.remove(batch_file_path)`.  If the local `batch_file_path` is unbound the
lookup itself raises (`Crash.unboundLocal`); otherwise the file is removed
when it exists. -/
def cleanupScript (st : RoundState) : Except Crash RoundState :=
  match st.batchFilePath with
  | none => .error .unboundLocal
  | some p =>
    if st.scripts.contains p then
      .ok { st with scripts := st.scripts.erase p, trace := st.trace ++ [Event.removeScript p] }
    else .ok st

/-- The inner output-read loop `for output_retry in range(max_output_retries)`
(lines 209–231), with `fuel` output tries remaining and `k` the current
`output_retry` value.  A successful parse breaks out with the record; a
missing/empty file or a read exception logs, sleeps `retry_delay`, and moves
to the next try. -/
def runReadLoopGo (cfg : Config) (w : AttemptWorld) :
    Nat → Nat → RoundState → RoundState × Option Rec
  | 0, _, st => (st, none)
  | fuel + 1, k, st =>
    match w.reads k with
    | ReadOutcome.success r =>
      ({ st with trace := st.trace ++ [Event.readAttempt k] }, some r)
    | _ =>
      runReadLoopGo cfg w fuel (k + 1)
        { st with trace := st.trace ++ [Event.readAttempt k, Event.sleep cfg.retryDelay] }

/-- The full output-read loop for one attempt. -/
def runReadLoop (cfg : Config) (w : AttemptWorld) (st : RoundState) : RoundState × Option Rec :=
  runReadLoopGo cfg w cfg.maxOutputRetries 0 st

/-- Result of one iteration of `for retry in range(max_retries)`
(lines 190–248): canonicalization returned `None` (line 194), the tool
invocation raised (line 242), the output-read loop was exhausted
(line 236), or a record was read (line 223). -/
inductive AttemptRes where
  | canonNone
  | invokeErr
  | readExhausted
  | gotRec (r : Rec)
deriving DecidableEq, Repr

/-- One iteration of the per-item retry loop (the `try`/`except`/`finally`
body, lines 191–248).  `canonFn` is the oracle for
`canonicalize_smiles` (lines 71–78); `w` describes the external world for
this attempt.  On read-exhaustion the item is appended to
`failed_output_smiles` in the initial round and to
`invalid_smiles_indices` otherwise (lines 237–240), *before* the `finally`
cleanup runs.  An invocation exception sleeps `retry_delay` (line 244) and
then runs the cleanup. -/
def runAttempt (cfg : Config) (canonFn : String → Option String) (roundDesc : String)
    (w : AttemptWorld) (smi : String) (oi : Nat) (st : RoundState) :
    Except Crash (RoundState × AttemptRes) :=
  match canonFn smi with
  | none =>
    let st1 :=
      { st with
          trace := st.trace ++ [Event.canonCall smi]
          invalidSmilesIndices := st.invalidSmilesIndices ++ [oi] }
    (cleanupScript st1).map (fun s => (s, AttemptRes.canonNone))
  | some _ =>
    let p := scriptPath oi
    let st1 :=
      { st with
          trace := st.trace ++ [Event.canonCall smi, Event.createScript p]
          batchFilePath := some p
          scripts := st.scripts ++ [p] }
    if w.invokeOk then
      let st2 := { st1 with trace := st1.trace ++ [Event.invoke p] }
      let rl := runReadLoop cfg w st2
      match rl.2 with
      | some r =>
        let st4 := { rl.1 with allHspFull := rl.1.allHspFull ++ [(r, oi)] }
        (cleanupScript st4).map (fun s => (s, AttemptRes.gotRec r))
      | none =>
        let st4 :=
          if roundDesc == "initial" then
            { rl.1 with failedOutputSmiles := rl.1.failedOutputSmiles ++ [(smi, oi)] }
          else
            { rl.1 with invalidSmilesIndices := rl.1.invalidSmilesIndices ++ [oi] }
        (cleanupScript st4).map (fun s => (s, AttemptRes.readExhausted))
    else
      let st2 := { st1 with trace := st1.trace ++ [Event.invoke p, Event.sleep cfg.retryDelay] }
      (cleanupScript st2).map (fun s => (s, AttemptRes.invokeErr))

/-- The per-item retry loop `for retry in range(max_retries)` (line 190)
with `fuel` iterations remaining and `j` the current `retry` value.
Only an invocation exception lets the loop continue to the next iteration;
every other outcome `break`s, and only a parsed record sets `success`.
The returned Bool is the final value of `success`. -/
def runRetryLoop (cfg : Config) (canonFn : String → Option String) (roundDesc : String)
    (itemEnv : Nat → AttemptWorld) (smi : String) (oi : Nat) :
    Nat → Nat → RoundState → Except Crash (RoundState × Bool)
  | 0, _, st => .ok (st, false)
  | fuel + 1, j, st =>
    match runAttempt cfg canonFn roundDesc (itemEnv j) smi oi st with
    | .error c => .error c
    | .ok (st', AttemptRes.gotRec _) => .ok (st', true)
    | .ok (st', AttemptRes.invokeErr) =>
      runRetryLoop cfg canonFn roundDesc itemEnv smi oi fuel (j + 1) st'
    | .ok (st', _) => .ok (st', false)

/-- Processing of one `(smi, original_index)` work item (lines 187–262):
the retry loop, then the post-loop failure check of lines 250–255 (which
appends to `failed_output_smiles` in the initial round and to
`invalid_smiles_indices` otherwise), then the clipboard clear and the
`clipboard_delay` pacing sleep of lines 258–259. -/
def processOne (cfg : Config) (canonFn : String → Option String) (roundDesc : String)
    (itemEnv : Nat → AttemptWorld) (smi : String) (oi : Nat) (st : RoundState) :
    Except Crash RoundState :=
  match runRetryLoop cfg canonFn roundDesc itemEnv smi oi cfg.maxRetries 0 st with
  | .error c => .error c
  | .ok (st1, success) =>
    let st2 :=
      if success then st1
      else if roundDesc == "initial" then
        { st1 with failedOutputSmiles := st1.failedOutputSmiles ++ [(smi, oi)] }
      else
        { st1 with invalidSmilesIndices := st1.invalidSmilesIndices ++ [oi] }
    .ok { st2 with trace := st2.trace ++ [Event.clearClipboard, Event.sleep cfg.clipboardDelay] }

/-- Slices the work list as `smiles_list[batch_start:batch_end]` for
`batch_start in range(0, len(smiles_list), batch_size)` (lines 181–183)
would: contiguous chunks of `bs` items.  `fuel` bounds the recursion by the
list length (each step with `bs > 0` consumes at least one element). -/
def chunkListGo (bs : Nat) : Nat → List α → List (List α)
  | _, [] => []
  | 0, _ :: _ => []
  | fuel + 1, a :: as => (a :: as).take bs :: chunkListGo bs fuel ((a :: as).drop bs)

/-- The batches of a work list. -/
def chunkList (bs : Nat) (l : List α) : List (List α) :=
  chunkListGo bs l.length l

/-- The inner loop `for smi, original_index in batch` (line 187); `pos` is
the item's global position in the round's work list, used to index the
environment. -/
def runChunkItems (cfg : Config) (canonFn : String → Option String) (roundDesc : String)
    (env : Nat → Nat → AttemptWorld) :
    List (String × Nat) → Nat → RoundState → Except Crash RoundState
  | [], _, st => .ok st
  | (smi, oi) :: rest, pos, st =>
    match processOne cfg canonFn roundDesc (env pos) smi oi st with
    | .error c => .error c
    | .ok st' => runChunkItems cfg canonFn roundDesc env rest (pos + 1) st'

/-- The batch loop (lines 181–272): for each batch, increment
`batch_count`, process its items, save intermediate results when
`batch_count % 10 == 0` (lines 264–267), and pause 10 seconds when another
batch follows (`batch_start + batch_size < len(smiles_list)`,
lines 270–272).  Returns the final state and `batch_count`. -/
def runBatches (cfg : Config) (canonFn : String → Option String) (roundDesc : String)
    (env : Nat → Nat → AttemptWorld) :
    List (List (String × Nat)) → Nat → Nat → RoundState → Except Crash (RoundState × Nat)
  | [], _, batchCount, st => .ok (st, batchCount)
  | chunk :: rest, pos, batchCount, st =>
    let bc := batchCount + 1
    match runChunkItems cfg canonFn roundDesc env chunk pos st with
    | .error c => .error c
    | .ok st1 =>
      let st2 := if bc % 10 == 0 then
          { st1 with trace := st1.trace ++ [Event.saveIntermediate bc] }
        else st1
      let st3 := if rest.isEmpty then st2
        else { st2 with trace := st2.trace ++ [Event.pauseBetweenBatches] }
      runBatches cfg canonFn roundDesc env rest (pos + chunk.length) bc st3

/-- `process_smiles_batch` (lines 176–277): initialize the local
accumulators, run the batch loop, and save once more at the end of the
round when `batch_count % 10 != 0` (lines 274–277). -/
def processSmilesBatch (cfg : Config) (canonFn : String → Option String)
    (env : Nat → Nat → AttemptWorld) (smilesList : List (String × Nat))
    (roundDesc : String) (invalidIn : List Nat) (scriptsIn : List String) :
    Except Crash RoundState :=
  match runBatches cfg canonFn roundDesc env (chunkList cfg.batchSize smilesList) 0 0
      (initState invalidIn scriptsIn) with
  | .error c => .error c
  | .ok (st, batchCount) =>
    if batchCount % 10 != 0 then
      .ok { st with trace := st.trace ++ [Event.saveIntermediate batchCount] }
    else .ok st

/-- The sentinel string filtered out before validation (lines 142–146). -/
def casNotFound : String := "CAS number not found"

/-- `valid_smiles_indices = [i for i, smi in enumerate(all_smiles) if smi !=
"CAS number not found"]` (line 144). -/
def validSmilesIndicesOf (all : List String) : List Nat :=
  (all.enum.filter (fun p => p.2 != casNotFound)).map (fun p => p.1)

/-- `invalid_cas_indices = [i for i, smi in enumerate(all_smiles) if smi ==
"CAS number not found"]` (line 145). -/
def invalidCasIndicesOf (all : List String) : List Nat :=
  (all.enum.filter (fun p => p.2 == casNotFound)).map (fun p => p.1)

/-- `all_smiles = [smi for smi in all_smiles if smi != "CAS number not
found"]` (line 146). -/
def filteredSmilesOf (all : List String) : List String :=
  all.filter (fun smi => smi != casNotFound)

/-- The validation loop of lines 150–164 over the filtered list paired with
its original indices (`valid_smiles_indices[i]`).  `rdkitValid` is the
oracle for `Chem.MolFromSmiles` returning a molecule (an exception during
validation is treated like an invalid result, as the `except` of line 162
does).  Returns `(invalid_smiles_indices, valid_smiles)` in traversal
order. -/
def validateSmiles (rdkitValid : String → Bool) :
    List (String × Nat) → List Nat × List (String × Nat)
  | [] => ([], [])
  | (smi, oi) :: rest =>
    let r := validateSmiles rdkitValid rest
    if rdkitValid smi then (r.1, (smi, oi) :: r.2) else (oi :: r.1, r.2)

/-- Errors terminating the module top level abnormally. -/
inductive RunError where
  | crash (c : Crash)
  | nameErrorFailedOutput
deriving DecidableEq, Repr

/-- The value of the name `failed_output_smiles` at module scope when
line 288 reads it.  `process_smiles_batch` assigns `failed_output_smiles`
only as a function local (line 178) and contains no `global` declaration,
so the assignment at line 178 never binds the module-level name; at
line 288 the name is unbound and evaluating it raises `NameError`.  (The
same holds for `all_hsp_full`, read at line 304.) -/
def moduleFailedOutputSmiles : Option (List (String × Nat)) := none

/-- The module top level of `HSPiP_CLI_v7.py` from the point where the
input list has been loaded (line 134): sentinel filtering (lines 142–148),
SMILES validation (lines 150–164), the initial round (line 285), then the
dispatch on `failed_output_smiles` at line 288.  Because that module-level
name is unbound, line 288 raises `NameError` and the program terminates
abnormally; the `some` branch below (the code of lines 289–356: the retry
round, the final assembly and the output files) is unreachable and is
modelled only as a normal continuation. -/
def mainRun (canonFn : String → Option String) (rdkitValid : String → Bool)
    (env : Nat → Nat → AttemptWorld) (allSmilesInput : List String) :
    Except RunError Unit :=
  let original := allSmilesInput
  let validIdx := validSmilesIndicesOf original
  let filtered := filteredSmilesOf original
  let v := validateSmiles rdkitValid (filtered.zip validIdx)
  match processSmilesBatch defaultConfig canonFn env v.2 "initial" v.1 [] with
  | .error c => .error (RunError.crash c)
  | .ok _ =>
    match moduleFailedOutputSmiles with
    | none => .error RunError.nameErrorFailedOutput
    | some _ => .ok ()

/-- Oracle: canonicalization that always succeeds with the input itself. -/
def idCanon : String → Option String := fun s => some s

/-- Oracle: every string parses as a molecule. -/
def allValid : String → Bool := fun _ => true

/-- A concrete property record used in witnesses. -/
def sampleRec : Rec := hspColumns.map (fun c => some c)

/-- A world in which the tool runs and its output parses on the first try. -/
def okWorld : AttemptWorld :=
  { invokeOk := true, reads := fun _ => ReadOutcome.success sampleRec }

/-- An environment of all-successful attempts. -/
def okEnv : Nat → Nat → AttemptWorld := fun _ _ => okWorld

/-- A world in which the tool runs but `Out.dat` never materializes. -/
def noReadWorld : AttemptWorld :=
  { invokeOk := true, reads := fun _ => ReadOutcome.missingOrEmpty }

/-- An environment in which every output read finds nothing. -/
def noReadEnv : Nat → Nat → AttemptWorld := fun _ _ => noReadWorld

/-- A world in which `subprocess.run` always raises. -/
def failInvokeWorld : AttemptWorld :=
  { invokeOk := false, reads := fun _ => ReadOutcome.missingOrEmpty }

/-- The result of one fully successful attempt on `("CCO", 0)` from a
fresh state. -/
def okAttempt : Except Crash (RoundState × AttemptRes) :=
  runAttempt defaultConfig idCanon "initial" okWorld "CCO" 0 (initState [] [])

/-- The state after that attempt. -/
def okAttemptState : RoundState :=
  match okAttempt with
  | .ok p => p.1
  | .error _ => initState [] []

/-- A one-item initial round with fully successful oracles. -/
def oneItemRound : Except Crash RoundState :=
  processSmilesBatch defaultConfig idCanon okEnv [("CCO", 0)] "initial" [] []

/-- Its final state. -/
def oneItemRoundState : RoundState :=
  match oneItemRound with
  | .ok s => s
  | .error _ => initState [] []

/-- Oracle for `Chem.MolFromSmiles` in the three-row scenario: `"CCO"`
parses as a molecule, `"not a molecule"` does not. -/
def rdkitDemo : String → Bool := fun s => s == "CCO"

end HSPiP

namespace PubChem

/-- A JSON value, as returned by `response.json()`.  Object keys are
modelled as strings (all keys produced by the PubChem API are strings). -/
inductive J where
  | null
  | s (v : String)
  | i (v : Int)
  | b (v : Bool)
  | arr (xs : List J)
  | obj (fs : List (String × J))

/-- Python exceptions relevant to `get_compound_info`:
`requests.RequestException`, `json.JSONDecodeError`, and the `TypeError` /
`KeyError` / `IndexError` raised by dictionary and list operations (all of
which fall to the catch-all `except Exception` of line 81). -/
inductive PyExc where
  | requestException (msg : String)
  | jsonDecodeError
  | typeError
  | keyError
  | indexError
deriving DecidableEq, Repr

/-- First binding of a key in an object; `none` if the value is not an
object or lacks the key. -/
def J.lookup : J → String → Option J
  | .obj fs, k => fs.lookup k
  | _, _ => none

/-- Whether an object value has the key. -/
def J.hasKey (j : J) (k : String) : Bool := (j.lookup k).isSome

/-- Python's `k in data` for a string `k`: key membership for a dict,
element membership (string equality) for a list, and `TypeError` for
values that support neither (the string-substring case cannot arise here
because every tested value comes from `response.json()` guards). -/
def pyContains (j : J) (k : String) : Except PyExc Bool :=
  match j with
  | .obj _ => .ok (j.hasKey k)
  | .arr xs => .ok (xs.any (fun x => match x with | .s v => v == k | _ => false))
  | _ => .error .typeError

/-- Python's `data[k]`: `KeyError` when the key is absent, `TypeError`
when the value is not a dict. -/
def pySubscript (j : J) (k : String) : Except PyExc J :=
  match j with
  | .obj _ =>
    match j.lookup k with
    | some v => .ok v
    | none => .error .keyError
  | _ => .error .typeError

/-- Python's `data[0]` on a list: `IndexError` when empty, `TypeError`
when the value is not a list. -/
def pyIndex0 (j : J) : Except PyExc J :=
  match j with
  | .arr [] => .error .indexError
  | .arr (x :: _) => .ok x
  | _ => .error .typeError

/-- Python's `data.get(k, d)`: `TypeError` (an `AttributeError` in Python,
equally caught by the catch-all) when the value is not a dict. -/
def pyGet (j : J) (k : String) (d : J) : Except PyExc J :=
  match j with
  | .obj _ => .ok ((j.lookup k).getD d)
  | _ => .error .typeError

/-- Python truthiness, used by `if name and value:` (line 73). -/
def truthy : J → Bool
  | .null => false
  | .s v => !(v == "")
  | .i v => !(v == 0)
  | .b v => v
  | .arr xs => !xs.isEmpty
  | .obj fs => !fs.isEmpty

/-- Assignment into a dict: replace the first binding of the key in place,
or append a new binding at the end (Python dict insertion order). -/
def objSetFields : List (String × J) → String → J → List (String × J)
  | [], k, v => [(k, v)]
  | (k0, v0) :: rest, k, v =>
    if k0 == k then (k0, v) :: rest else (k0, v0) :: objSetFields rest k v

/-- Python's `properties[name] = value`: `TypeError` when `properties` is
not a dict. -/
def pySetItem (j : J) (k : String) (v : J) : Except PyExc J :=
  match j with
  | .obj fs => .ok (.obj (objSetFields fs k v))
  | _ => .error .typeError

/-- `.items()` on a dict (line 92); `TypeError` otherwise. -/
def pyItems (j : J) : Except PyExc (List (String × J)) :=
  match j with
  | .obj fs => .ok fs
  | _ => .error .typeError

/-- Iterating a JSON value with `for`: a list yields its elements, a dict
its keys; other values are not iterable here.  (String iteration cannot be
reached by the code paths modelled.) -/
def pyIter (j : J) : Except PyExc (List J) :=
  match j with
  | .arr xs => .ok xs
  | .obj fs => .ok (fs.map (fun p => J.s p.1))
  | _ => .error .typeError

/-- Python's `str()` as used in f-string interpolation of `cid` (an
integer in every real response) and of property values.  Composite values
are rendered approximately; no modelled code path depends on their exact
rendering. -/
def pyStr : J → String
  | .null => "None"
  | .s v => v
  | .i v => toString v
  | .b true => "True"
  | .b false => "False"
  | .arr _ => "[...]"
  | .obj _ => "{...}"

/-- `base_url` (line 36). -/
def baseUrl : String := "https://pubchem.ncbi.nlm.nih.gov/rest/pug"

/-- `cid_url` (line 40). -/
def cidUrl (cas : String) : String := s!"{baseUrl}/compound/name/{cas}/cids/JSON"

/-- The fixed property list of the `properties_url` (line 50). -/
def propertyFields : String :=
  "MolecularFormula,MolecularWeight,CanonicalSMILES,IsomericSMILES,InChI,InChIKey,IUPACName,XLogP,ExactMass,MonoisotopicMass,TPSA,Complexity,Charge,HBondDonorCount,HBondAcceptorCount,RotatableBondCount,HeavyAtomCount,IsotopeAtomCount,AtomStereoCount,DefinedAtomStereoCount,UndefinedAtomStereoCount,BondStereoCount,DefinedBondStereoCount,UndefinedBondStereoCount,CovalentUnitCount,Volume3D,XStericQuadrupole3D,YStericQuadrupole3D,ZStericQuadrupole3D,FeatureCount3D,FeatureAcceptorCount3D,FeatureDonorCount3D,FeatureAnionCount3D,FeatureCationCount3D,FeatureRingCount3D,FeatureHydrophobeCount3D,ConformerModelRMSD3D,EffectiveRotorCount3D,ConformerCount3D"

/-- `properties_url` (line 50). -/
def propertiesUrl (cid : J) : String :=
  let cidS := pyStr cid
  s!"{baseUrl}/compound/cid/{cidS}/property/{propertyFields}/JSON"

/-- `section_url` (line 62). -/
def sectionUrl (cid : J) (section0 : String) : String :=
  let cidS := pyStr cid
  s!"{baseUrl}/compound/cid/{cidS}/JSON?heading={section0}"

/-- The two report sections scanned in step 3 (line 60). -/
def sectionNames : List String := ["Physical Properties", "Chemical and Physical Properties"]

/-- The `{'Error': msg}` dictionaries the function returns. -/
def errObj (msg : String) : J := J.obj [("Error", J.s msg)]

/-- The innermost body of the step-3 scan (lines 70–74): extract `Name`
and `Value.StringWithMarkup[0].String` with the source's `.get` defaults
and, when both are truthy, store the pair in `properties`.  A non-string
`Name` (never produced by the API) is coerced to its string form as dict
key. -/
def infoStep (props : J) (info : J) : Except PyExc J := do
  let name ← pyGet info "Name" (J.s "")
  let v1 ← pyGet info "Value" (J.obj [])
  let v2 ← pyGet v1 "StringWithMarkup" (J.arr [J.obj []])
  let v3 ← pyIndex0 v2
  let value ← pyGet v3 "String" (J.s "")
  if truthy name && truthy value then pySetItem props (pyStr name) value else pure props

/-- `for subsection in s.get('Section', [])` with its inner `Information`
loop (lines 69–74). -/
def subsectionStep (props : J) (subsection : J) : Except PyExc J := do
  let infos ← pyGet subsection "Information" (J.arr [])
  let infoList ← pyIter infos
  infoList.foldlM infoStep props

/-- One entry `s` of `section_data['Record']['Section']` (lines 67–74):
`s['TOCHeading']` is subscripted unconditionally (a missing key raises),
and only an entry whose heading equals the requested section is scanned. -/
def sectionEntryStep (section0 : String) (props : J) (s : J) : Except PyExc J := do
  let toc ← pySubscript s "TOCHeading"
  let isMatch := match toc with | J.s v => v == section0 | _ => false
  if isMatch then do
    let subs ← pyGet s "Section" (J.arr [])
    let subsList ← pyIter subs
    subsList.foldlM subsectionStep props
  else pure props

/-- One iteration of `for section in sections` (lines 61–74): fetch the
section report and, when `'Record' in section_data and 'Section' in
section_data['Record']`, scan its section entries. -/
def oneSection (fetch : String → Except PyExc J) (cid : J) (props : J) (section0 : String) :
    Except PyExc J := do
  let sectionData ← fetch (sectionUrl cid section0)
  let c1 ← pyContains sectionData "Record"
  let cond ← if !c1 then pure false else do
    let recd ← pySubscript sectionData "Record"
    pyContains recd "Section"
  if cond then do
    let recd ← pySubscript sectionData "Record"
    let secs ← pySubscript recd "Section"
    let secList ← pyIter secs
    secList.foldlM (sectionEntryStep section0) props
  else pure props

/-- The body of the `try` of `get_compound_info` (lines 38–76).  `fetch`
is the oracle for `requests.get(url).json()`: it returns the decoded JSON
value or raises (`requests.RequestException` from the request,
`json.JSONDecodeError` from decoding). -/
def getCompoundInfoInner (fetch : String → Except PyExc J) (cas : String) : Except PyExc J := do
  let data ← fetch (cidUrl cas)
  let c1 ← pyContains data "IdentifierList"
  let noMapping ← if !c1 then pure true else do
    let il ← pySubscript data "IdentifierList"
    let c2 ← pyContains il "CID"
    pure (!c2)
  if noMapping then
    pure (errObj s!"CAS number {cas} not found in PubChem")
  else do
    let il ← pySubscript data "IdentifierList"
    let cids ← pySubscript il "CID"
    let cid ← pyIndex0 cids
    let data2 ← fetch (propertiesUrl cid)
    let d1 ← pyContains data2 "PropertyTable"
    let noProps ← if !d1 then pure true else do
      let pt ← pySubscript data2 "PropertyTable"
      let c ← pyContains pt "Properties"
      pure (!c)
    if noProps then
      let cidS := pyStr cid
      pure (errObj s!"Failed to retrieve properties for CID {cidS}")
    else do
      let pt ← pySubscript data2 "PropertyTable"
      let propsArr ← pySubscript pt "Properties"
      let props0 ← pyIndex0 propsArr
      sectionNames.foldlM (oneSection fetch cid) props0

/-- The message `str(e)` of an exception reaching the catch-all handler. -/
def excStr : PyExc → String
  | .requestException m => m
  | .jsonDecodeError => "JSONDecodeError"
  | .typeError => "TypeError"
  | .keyError => "KeyError"
  | .indexError => "IndexError"

/-- `get_compound_info` (lines 34–82): the `try` body wrapped by the three
`except` clauses, which turn every exception into an `{'Error': ...}`
dictionary (lines 77–82). -/
def getCompoundInfo (fetch : String → Except PyExc J) (cas : String) : J :=
  match getCompoundInfoInner fetch cas with
  | .ok props => props
  | .error (.requestException m) => errObj s!"Network error: {m}"
  | .error .jsonDecodeError => errObj "Failed to parse JSON response"
  | .error e =>
    let m := excStr e
    errObj s!"Unexpected error: {m}"

/-- The message carried by the `{'Error': ...}` dictionary produced for
each exception class by the handlers of lines 77–82. -/
def excMessage : PyExc → String
  | .requestException m => s!"Network error: {m}"
  | .jsonDecodeError => "Failed to parse JSON response"
  | e => "Unexpected error: " ++ excStr e

/-- The single error line printed by the CLI (line 95). -/
def errorLine (msg : String) : String := s!"Error: {msg}"

/-- `format_property` (lines 84–86); the value is rendered by `str` as the
f-string does. -/
def formatProperty (propName : String) (propValue : J) : String :=
  let vS := pyStr propValue
  s!"{propName}: {vS}"

/-- The `__main__` block (lines 88–97), taking `sys.argv[1:]` and returning
the printed lines.  `'Error' not in properties` and `properties.items()`
can raise only if `properties` is not a dict, which no modelled theorem
exercises. -/
def cliMain (fetch : String → Except PyExc J) (argv : List String) :
    Except PyExc (List String) :=
  match argv with
  | [] => .ok ["Please provide a CAS number as an argument."]
  | cas :: _ => do
    let properties := getCompoundInfo fetch cas
    let hasErr ← pyContains properties "Error"
    if !hasErr then do
      let fields ← pyItems properties
      pure (fields.map (fun p => formatProperty p.1 p.2))
    else do
      let ev ← pySubscript properties "Error"
      let evS := pyStr ev
      pure [s!"Error: {evS}"]

end PubChem

open HSPiP PubChem

/-! ## Helper lemmas about the result assembly (claim C3 and reused later) -/

/-- Scattering pairs with `List.set` preserves the array length. -/
theorem foldl_set_length (res : List (Rec × Nat)) (acc : List (Option Rec)) :
    (res.foldl (fun a p => a.set p.2 (some p.1)) acc).length = acc.length := by
  induction res generalizing acc with
  | nil => rfl
  | cons p rest ih =>
    rw [List.foldl_cons, ih]
    exact List.length_set ..

/-- A cell whose index never occurs among the scattered pairs is untouched. -/
theorem foldl_set_getElem?_of_not_mem (res : List (Rec × Nat)) (acc : List (Option Rec))
    (i : Nat) (h : ∀ p ∈ res, p.2 ≠ i) :
    (res.foldl (fun a p => a.set p.2 (some p.1)) acc)[i]? = acc[i]? := by
  induction res generalizing acc with
  | nil => rfl
  | cons p rest ih =>
    rw [List.foldl_cons, ih _ (fun q hq => h q (List.mem_cons_of_mem _ hq))]
    exact List.getElem?_set_ne (h p (List.mem_cons_self ..))

/-- Each cell of the scattered array is either untouched (and no pair bears
its index) or holds the record of some pair bearing its index. -/
theorem foldl_set_getElem?_cases (res : List (Rec × Nat)) (acc : List (Option Rec))
    (i : Nat) (hi : i < acc.length) :
    ((res.foldl (fun a p => a.set p.2 (some p.1)) acc)[i]? = acc[i]? ∧ ∀ p ∈ res, p.2 ≠ i)
    ∨ ∃ p ∈ res, p.2 = i ∧ (res.foldl (fun a p => a.set p.2 (some p.1)) acc)[i]? = some (some p.1) := by
  induction res generalizing acc with
  | nil => exact Or.inl ⟨rfl, by simp⟩
  | cons p rest ih =>
    rw [List.foldl_cons]
    rcases ih (acc.set p.2 (some p.1)) (by simpa using hi) with ⟨huntouched, hnone⟩ | ⟨q, hq, hqi, hval⟩
    · by_cases hpi : p.2 = i
      · refine Or.inr ⟨p, List.mem_cons_self .., hpi, ?_⟩
        rw [huntouched]
        subst hpi
        exact List.getElem?_set_self hi
      · refine Or.inl ⟨?_, ?_⟩
        · rw [huntouched]
          exact List.getElem?_set_ne hpi
        · intro q hq
          rcases List.mem_cons.mp hq with rfl | hq
          · exact hpi
          · exact hnone q hq
    · exact Or.inr ⟨q, List.mem_cons_of_mem _ hq, hqi, hval⟩

/-- The scattered sparse array has length `n`. -/
theorem orderedResults_length (res : List (Rec × Nat)) (n : Nat) :
    (orderedResults res n).length = n := by
  rw [orderedResults, foldl_set_length]
  exact List.length_replicate ..

/-- The assembled table always has one row per original input row. -/
theorem assembleResultsTable_length (res : List (Rec × Nat)) (smis : List String) :
    (assembleResultsTable res smis).length = smis.length := by
  rw [assembleResultsTable]
  simp [List.enum_length]

/-- Case analysis on a cell of the sparse array: either it stayed `None`
and no collected pair bears the index, or it holds the record of a
collected pair bearing the index. -/
theorem orderedResults_cases (res : List (Rec × Nat)) (n : Nat) (i : Nat) (hi : i < n) :
    ((orderedResults res n).getD i none = none ∧ ∀ p ∈ res, p.2 ≠ i)
    ∨ ∃ p ∈ res, p.2 = i ∧ (orderedResults res n).getD i none = some p.1 := by
  have hacc : i < (List.replicate n (none : Option Rec)).length := by simpa using hi
  rcases foldl_set_getElem?_cases res (List.replicate n none) i hacc with ⟨h1, _h2⟩ | ⟨p, hp, hpi, hval⟩
  · left
    refine ⟨?_, _h2⟩
    rw [orderedResults, List.getD_eq_getElem?_getD, h1]
    simp [List.getElem?_replicate, hi]
  · right
    exact ⟨p, hp, hpi, by rw [orderedResults, List.getD_eq_getElem?_getD, hval]; rfl⟩

/-- Row `i` of the assembled table, for `i` within the input. -/
theorem assembleResultsTable_getElem? (res : List (Rec × Nat)) (smis : List String)
    (i : Nat) (hi : i < smis.length) :
    (assembleResultsTable res smis)[i]? = some
      (match (orderedResults res smis.length).getD i none with
       | some df => (smis.getD i "", df)
       | none => (smis.getD i "", emptyRow)) := by
  rw [assembleResultsTable]
  simp only [List.getElem?_map, List.getElem?_enum, List.getElem?_eq_getElem hi, Option.map_some']
  simp [List.getD_eq_getElem?_getD, List.getElem?_eq_getElem hi]

/-- C3: for every input of `N` rows, the assembled final result table has
exactly `N` rows, one per original index with each original index appearing
exactly once (row `i` is the entry for original index `i`); every index
without a real result is filled with the all-missing placeholder record of
the fixed schema; otherwise the row carries the real record of a collected
pair bearing that index; and each row is paired with the original raw
identifier string.  The placeholder row has one missing cell per column of
the fixed schema. -/
theorem assembleResultsTable_complete (res : List (Rec × Nat)) (smis : List String) :
    (assembleResultsTable res smis).length = smis.length
    ∧ (∀ i, i < smis.length →
        ((assembleResultsTable res smis).getD i ("", [])).1 = smis.getD i "")
    ∧ (∀ i, i < smis.length →
        ((((assembleResultsTable res smis).getD i ("", [])).2 = emptyRow ∧ ∀ p ∈ res, p.2 ≠ i)
         ∨ ∃ p ∈ res, p.2 = i ∧ ((assembleResultsTable res smis).getD i ("", [])).2 = p.1))
    ∧ (∀ i, i < smis.length → (∀ p ∈ res, p.2 ≠ i) →
        (assembleResultsTable res smis).getD i ("", []) = (smis.getD i "", emptyRow))
    ∧ emptyRow.length = hspColumns.length
    ∧ (∀ c ∈ emptyRow, c = none) := by
  have hrow : ∀ i, i < smis.length →
      (assembleResultsTable res smis).getD i ("", []) =
        (match (orderedResults res smis.length).getD i none with
         | some df => (smis.getD i "", df)
         | none => (smis.getD i "", emptyRow)) := by
    intro i hi
    rw [List.getD_eq_getElem?_getD, assembleResultsTable_getElem? res smis i hi]
    rfl
  refine ⟨assembleResultsTable_length res smis, ?_, ?_, ?_, ?_, ?_⟩
  · intro i hi
    rw [hrow i hi]
    rcases h : (orderedResults res smis.length).getD i none with _ | df <;> simp
  · intro i hi
    rw [hrow i hi]
    rcases orderedResults_cases res smis.length i hi with ⟨hnone, hfree⟩ | ⟨p, hp, hpi, hval⟩
    · rw [hnone]
      exact Or.inl ⟨rfl, hfree⟩
    · rw [hval]
      exact Or.inr ⟨p, hp, hpi, rfl⟩
  · intro i hi hfree
    rw [hrow i hi]
    rcases orderedResults_cases res smis.length i hi with ⟨hnone, _⟩ | ⟨p, hp, hpi, _⟩
    · rw [hnone]
    · exact absurd hpi (hfree p hp)
  · simp [emptyRow]
  · intro c hc
    simp only [emptyRow, List.mem_map] at hc
    obtain ⟨_, _, rfl⟩ := hc
    rfl

/-- Witness for C3 at a concrete input: two input rows, one collected
record at index 1; row 0 is the placeholder paired with its raw string,
row 1 carries the real record. -/
theorem assembleResultsTable_complete_witness :
    (assembleResultsTable [(sampleRec, 1)] ["a", "CAS number not found"]).length = 2
    ∧ (assembleResultsTable [(sampleRec, 1)] ["a", "CAS number not found"]).getD 0 ("", []) =
        ("a", emptyRow)
    ∧ (((((assembleResultsTable [(sampleRec, 1)] ["a", "CAS number not found"]).getD 1 ("", [])).2 = emptyRow
          ∧ ∀ p ∈ [(sampleRec, 1)], p.2 ≠ 1)
        ∨ ∃ p ∈ [(sampleRec, 1)], p.2 = 1
          ∧ ((assembleResultsTable [(sampleRec, 1)] ["a", "CAS number not found"]).getD 1 ("", [])).2 = p.1)) := by
  have h := assembleResultsTable_complete [(sampleRec, 1)] ["a", "CAS number not found"]
  refine ⟨h.1, ?_, ?_⟩
  · have := h.2.2.2.1 0 (by decide) (by decide)
    simpa using this
  · exact h.2.2.1 1 (by decide)

/-! ## Claims C1 and C2: the module top level crashes at line 288 -/

/-- C1 (refuting evidence): the program never reaches normal termination.
For every oracle and every input list the module top level returns an
error — either the `UnboundLocalError` crash from inside the round, or,
always otherwise, the `NameError` raised at line 288 when the unbound
module-level name `failed_output_smiles` is read — so the final output
files (timestamped tables, or the `_empty`-suffixed all-missing table) are
never written.  The second conjunct evaluates the program on the concrete
input `["CCO"]` with fully successful oracles. -/
theorem mainRun_never_terminates_normally :
    (∀ (canonFn : String → Option String) (rdkitValid : String → Bool)
       (env : Nat → Nat → AttemptWorld) (input : List String),
       ∃ e, mainRun canonFn rdkitValid env input = Except.error e)
    ∧ mainRun idCanon allValid okEnv ["CCO"] = Except.error RunError.nameErrorFailedOutput := by
  constructor
  · intro canonFn rdkitValid env input
    simp only [mainRun]
    cases h : processSmilesBatch defaultConfig canonFn env
        (validateSmiles rdkitValid
          ((filteredSmilesOf input).zip (validSmilesIndicesOf input))).2
        "initial"
        (validateSmiles rdkitValid
          ((filteredSmilesOf input).zip (validSmilesIndicesOf input))).1 [] with
    | error c => exact ⟨RunError.crash c, by simp [h]⟩
    | ok st => exact ⟨RunError.nameErrorFailedOutput, by simp [h, moduleFailedOutputSmiles]⟩
  · rfl

/-- C2 (refuting evidence): an item that fails round 1 only by
read-exhaustion is collected into the local `failed_output_smiles` list
(twice, in fact), but that list dies with `process_smiles_batch`'s scope:
at line 288 the module-level name is unbound, the run raises `NameError`,
and no second round and no final table ever happen. -/
theorem readExhausted_item_never_replayed :
    (processSmilesBatch defaultConfig idCanon noReadEnv [("CCO", 0)] "initial" [] []).map
        (fun s => s.failedOutputSmiles) = Except.ok [("CCO", 0), ("CCO", 0)]
    ∧ mainRun idCanon allValid noReadEnv ["CCO"] = Except.error RunError.nameErrorFailedOutput := by
  exact ⟨rfl, rfl⟩

/-! ## Helper lemmas about the output-read loop and a single attempt -/

/-- The output-read loop only appends trace events: every other state
field is untouched. -/
theorem runReadLoopGo_fields (cfg : Config) (w : AttemptWorld) :
    ∀ fuel k st, (runReadLoopGo cfg w fuel k st).1.allHspFull = st.allHspFull
      ∧ (runReadLoopGo cfg w fuel k st).1.failedOutputSmiles = st.failedOutputSmiles
      ∧ (runReadLoopGo cfg w fuel k st).1.invalidSmilesIndices = st.invalidSmilesIndices
      ∧ (runReadLoopGo cfg w fuel k st).1.batchFilePath = st.batchFilePath
      ∧ (runReadLoopGo cfg w fuel k st).1.scripts = st.scripts := by
  intro fuel
  induction fuel with
  | zero => exact fun k st => ⟨rfl, rfl, rfl, rfl, rfl⟩
  | succ n ih =>
    intro k st
    rw [runReadLoopGo]
    cases h : w.reads k with
    | success r => exact ⟨rfl, rfl, rfl, rfl, rfl⟩
    | missingOrEmpty => exact ih (k + 1) _
    | readError => exact ih (k + 1) _

/-- If no read try ever succeeds, the loop is exhausted with no record. -/
theorem runReadLoopGo_all_fail (cfg : Config) (w : AttemptWorld)
    (hreads : ∀ k r, w.reads k ≠ ReadOutcome.success r) :
    ∀ fuel k st, (runReadLoopGo cfg w fuel k st).2 = none := by
  intro fuel
  induction fuel with
  | zero => exact fun k st => rfl
  | succ n ih =>
    intro k st
    rw [runReadLoopGo]
    cases h : w.reads k with
    | success r => exact absurd h (hreads k r)
    | missingOrEmpty => exact ih (k + 1) _
    | readError => exact ih (k + 1) _

/-- A freshly appended script path is found and erased by the cleanup. -/
theorem cleanupScript_of_appended (st : RoundState) (p : String)
    (hbfp : st.batchFilePath = some p) (hmem : p ∈ st.scripts) :
    cleanupScript st = .ok
      { st with scripts := st.scripts.erase p, trace := st.trace ++ [Event.removeScript p] } := by
  have hc : st.scripts.contains p = true := List.elem_eq_true_of_mem hmem
  simp only [cleanupScript, hbfp, hc, if_true]

/-- One attempt whose invocation runs but whose output-read loop is
exhausted: the attempt ends in `readExhausted`, appends the item once to
`failed_output_smiles` in the initial round (to `invalid_smiles_indices`
otherwise), touches no other accumulator, and leaves `batch_file_path`
bound to the item's script path. -/
theorem runAttempt_readExhausted (cfg : Config) (canonFn : String → Option String)
    (roundDesc : String) (w : AttemptWorld) (smi : String) (oi : Nat) (st : RoundState)
    (c : String) (hcanon : canonFn smi = some c) (hinvoke : w.invokeOk = true)
    (hreads : ∀ k r, w.reads k ≠ ReadOutcome.success r) :
    ∃ st', runAttempt cfg canonFn roundDesc w smi oi st = .ok (st', AttemptRes.readExhausted)
      ∧ st'.failedOutputSmiles =
          (if roundDesc == "initial" then st.failedOutputSmiles ++ [(smi, oi)]
           else st.failedOutputSmiles)
      ∧ st'.invalidSmilesIndices =
          (if roundDesc == "initial" then st.invalidSmilesIndices
           else st.invalidSmilesIndices ++ [oi])
      ∧ st'.allHspFull = st.allHspFull
      ∧ st'.batchFilePath = some (scriptPath oi) := by
  have hnone : ∀ f k s, (runReadLoopGo cfg w f k s).2 = none :=
    runReadLoopGo_all_fail cfg w hreads
  have hA : ∀ f k s, (runReadLoopGo cfg w f k s).1.allHspFull = s.allHspFull :=
    fun f k s => (runReadLoopGo_fields cfg w f k s).1
  have hF : ∀ f k s, (runReadLoopGo cfg w f k s).1.failedOutputSmiles = s.failedOutputSmiles :=
    fun f k s => (runReadLoopGo_fields cfg w f k s).2.1
  have hI : ∀ f k s, (runReadLoopGo cfg w f k s).1.invalidSmilesIndices = s.invalidSmilesIndices :=
    fun f k s => (runReadLoopGo_fields cfg w f k s).2.2.1
  have hB : ∀ f k s, (runReadLoopGo cfg w f k s).1.batchFilePath = s.batchFilePath :=
    fun f k s => (runReadLoopGo_fields cfg w f k s).2.2.2.1
  have hS : ∀ f k s, (runReadLoopGo cfg w f k s).1.scripts = s.scripts :=
    fun f k s => (runReadLoopGo_fields cfg w f k s).2.2.2.2
  have hc : ∀ l : List String, (l ++ [scriptPath oi]).contains (scriptPath oi) = true :=
    fun l => List.elem_eq_true_of_mem (List.mem_append_right _ (List.mem_singleton.mpr rfl))
  rw [runAttempt, hcanon, hinvoke]
  by_cases hr : (roundDesc == "initial") = true
  · simp only [if_true, runReadLoop, hnone, hr, cleanupScript, hA, hF, hI, hB, hS, hc]
    exact ⟨_, rfl, by simp [hr, hF], by simp [hr, hI], by simp [hA], by simp [hB]⟩
  · simp only [if_true, runReadLoop, hnone, Bool.not_eq_true] at hr ⊢
    simp only [hr, Bool.false_eq_true, if_false, cleanupScript, hA, hF, hI, hB, hS, hc]
    exact ⟨_, rfl, by simp [hr, hF], by simp [hr, hI], by simp [hA], by simp [hB]⟩

/-! ## Claim C4: read-exhausted items enter the round-2 list twice -/

/-- C4: an initial-round item whose output-read loop is exhausted (the
invocation itself having run) is appended to `failed_output_smiles` twice:
once in the read-exhaustion branch (line 238) and once more in the
post-loop failure check (line 253). -/
theorem processOne_double_append (cfg : Config) (canonFn : String → Option String)
    (itemEnv : Nat → AttemptWorld) (smi : String) (oi : Nat) (st : RoundState) (c : String)
    (hcanon : canonFn smi = some c)
    (hinvoke : (itemEnv 0).invokeOk = true)
    (hreads : ∀ k r, (itemEnv 0).reads k ≠ ReadOutcome.success r)
    (hretries : 0 < cfg.maxRetries) :
    (processOne cfg canonFn "initial" itemEnv smi oi st).map (fun s => s.failedOutputSmiles)
      = Except.ok (st.failedOutputSmiles ++ [(smi, oi), (smi, oi)]) := by
  obtain ⟨st1, hrun, hfail, hinv, hall, hbfp⟩ :=
    runAttempt_readExhausted cfg canonFn "initial" (itemEnv 0) smi oi st c hcanon hinvoke hreads
  have hloop : runRetryLoop cfg canonFn "initial" itemEnv smi oi cfg.maxRetries 0 st
      = .ok (st1, false) := by
    obtain ⟨m, hm⟩ := Nat.exists_eq_succ_of_ne_zero (Nat.pos_iff_ne_zero.mp hretries)
    rw [hm, runRetryLoop, hrun]
  rw [processOne, hloop]
  simp only [if_false, Bool.false_eq_true]
  simp [hfail, Except.map]

/-- Witness for C4: with the default configuration and an environment
whose output file never materializes, the single item `("CCO", 5)` ends up
twice in the second-round work list. -/
theorem processOne_double_append_witness :
    (processOne defaultConfig idCanon "initial" (fun _ => noReadWorld) "CCO" 5
        (initState [] [])).map (fun s => s.failedOutputSmiles)
      = Except.ok [("CCO", 5), ("CCO", 5)] := by
  have h := processOne_double_append defaultConfig idCanon (fun _ => noReadWorld) "CCO" 5
    (initState [] []) "CCO" rfl rfl (fun k r => by simp [noReadWorld]) (by decide)
  simpa [initState] using h

/-! ## Claim C6: round-1 invocation failures are escalated, not dropped -/

/-- One attempt whose invocation raises: the attempt consumes one retry,
sleeps `retry_delay`, removes the script it created, and leaves every
accumulator untouched. -/
theorem runAttempt_invokeErr (cfg : Config) (canonFn : String → Option String)
    (roundDesc : String) (w : AttemptWorld) (smi : String) (oi : Nat) (st : RoundState)
    (c : String) (hcanon : canonFn smi = some c) (hinvoke : w.invokeOk = false) :
    ∃ st', runAttempt cfg canonFn roundDesc w smi oi st = .ok (st', AttemptRes.invokeErr)
      ∧ st'.failedOutputSmiles = st.failedOutputSmiles
      ∧ st'.invalidSmilesIndices = st.invalidSmilesIndices
      ∧ st'.allHspFull = st.allHspFull
      ∧ st'.batchFilePath = some (scriptPath oi)
      ∧ st'.trace = st.trace ++ [Event.canonCall smi, Event.createScript (scriptPath oi),
          Event.invoke (scriptPath oi), Event.sleep cfg.retryDelay,
          Event.removeScript (scriptPath oi)] := by
  have hc : ∀ l : List String, (l ++ [scriptPath oi]).contains (scriptPath oi) = true :=
    fun l => List.elem_eq_true_of_mem (List.mem_append_right _ (List.mem_singleton.mpr rfl))
  rw [runAttempt, hcanon, hinvoke]
  simp only [Bool.false_eq_true, if_false, cleanupScript, hc, if_true]
  exact ⟨_, rfl, rfl, rfl, rfl, rfl, by simp⟩

/-- If every attempt's invocation raises, the retry loop exhausts its
attempts with `success = False` and no accumulator is changed. -/
theorem runRetryLoop_all_invokeErr (cfg : Config) (canonFn : String → Option String)
    (roundDesc : String) (itemEnv : Nat → AttemptWorld) (smi : String) (oi : Nat)
    (c : String) (hcanon : canonFn smi = some c)
    (hinvoke : ∀ j, (itemEnv j).invokeOk = false) :
    ∀ fuel j st, ∃ st',
      runRetryLoop cfg canonFn roundDesc itemEnv smi oi fuel j st = .ok (st', false)
      ∧ st'.failedOutputSmiles = st.failedOutputSmiles
      ∧ st'.invalidSmilesIndices = st.invalidSmilesIndices
      ∧ st'.allHspFull = st.allHspFull := by
  intro fuel
  induction fuel with
  | zero => exact fun j st => ⟨st, rfl, rfl, rfl, rfl⟩
  | succ n ih =>
    intro j st
    obtain ⟨st1, hrun, hfail, hinv, hall, _, _⟩ :=
      runAttempt_invokeErr cfg canonFn roundDesc (itemEnv j) smi oi st c hcanon (hinvoke j)
    obtain ⟨st2, hloop, hfail2, hinv2, hall2⟩ := ih (j + 1) st1
    refine ⟨st2, ?_, ?_, ?_, ?_⟩
    · rw [runRetryLoop, hrun]
      exact hloop
    · rw [hfail2, hfail]
    · rw [hinv2, hinv]
    · rw [hall2, hall]

/-- C6 counterexample: with every invocation raising, the item `("CCO", 0)`
IS placed in the round-2 work list (`failed_output_smiles`) by the
post-loop failure check — the claim that such items are never escalated is
false on the code. -/
theorem invokeErr_item_escalated_counterexample :
    (processOne defaultConfig idCanon "initial" (fun _ => failInvokeWorld) "CCO" 0
        (initState [] [])).map (fun s => s.failedOutputSmiles.contains ("CCO", 0))
      = Except.ok true := by
  rfl

/-- C6 (amended): an initial-round item that exhausts `max_retries`
attempts through invocation errors is appended exactly once to the
round-2 work list `failed_output_smiles` by the post-loop failure check
(line 253), and is not recorded in `invalid_smiles_indices`; escalation to
round 2 is not limited to read-exhaustion. -/
theorem invokeErr_item_escalated (cfg : Config) (canonFn : String → Option String)
    (itemEnv : Nat → AttemptWorld) (smi : String) (oi : Nat) (st : RoundState) (c : String)
    (hcanon : canonFn smi = some c)
    (hinvoke : ∀ j, (itemEnv j).invokeOk = false) :
    (processOne cfg canonFn "initial" itemEnv smi oi st).map
        (fun s => (s.failedOutputSmiles, s.invalidSmilesIndices, s.allHspFull))
      = Except.ok (st.failedOutputSmiles ++ [(smi, oi)], st.invalidSmilesIndices, st.allHspFull) := by
  obtain ⟨st1, hloop, hfail, hinv, hall⟩ :=
    runRetryLoop_all_invokeErr cfg canonFn "initial" itemEnv smi oi c hcanon hinvoke
      cfg.maxRetries 0 st
  rw [processOne, hloop]
  simp only [if_false, Bool.false_eq_true]
  simp [hfail, hinv, hall, Except.map]

/-- Witness for the amended C6 at a concrete input. -/
theorem invokeErr_item_escalated_witness :
    (processOne defaultConfig idCanon "initial" (fun _ => failInvokeWorld) "CCO" 7
        (initState [] [])).map
        (fun s => (s.failedOutputSmiles, s.invalidSmilesIndices, s.allHspFull))
      = Except.ok ([("CCO", 7)], [], []) := by
  have h := invokeErr_item_escalated defaultConfig idCanon (fun _ => failInvokeWorld) "CCO" 7
    (initState [] []) "CCO" rfl (fun j => rfl)
  simpa [initState] using h

/-! ## Claim C7: script cleanup -/

/-- Erasing a freshly appended element restores the original list. -/
theorem erase_append_singleton (l : List String) (p : String) (h : p ∉ l) :
    (l ++ [p]).erase p = l := by
  rw [List.erase_append_right _ h, List.erase_cons_head, List.append_nil]

/-- C7 evidence: (a) when the very first attempt of a round aborts before
the script path is assigned (canonicalization returns no result on the
round's first item), the `finally` block itself raises — the whole round
crashes with `UnboundLocalError` instead of completing cleanup; (b) in
every attempt that does reach script creation, the `finally` block removes
the created script whatever the outcome, leaving the file system as it
was. -/
theorem script_cleanup_spec :
    processSmilesBatch defaultConfig (fun _ => none) okEnv [("QQ", 0)] "initial" [] []
      = Except.error Crash.unboundLocal
    ∧ (∀ (cfg : Config) (canonFn : String → Option String) (roundDesc : String)
         (w : AttemptWorld) (smi : String) (oi : Nat) (st : RoundState) (c : String)
         (st' : RoundState) (r : AttemptRes),
         canonFn smi = some c → scriptPath oi ∉ st.scripts →
         runAttempt cfg canonFn roundDesc w smi oi st = .ok (st', r) →
         st'.scripts = st.scripts) := by
  constructor
  · rfl
  · intro cfg canonFn roundDesc w smi oi st c st' r hcanon hnotin hok
    have hS : ∀ f k s, (runReadLoopGo cfg w f k s).1.scripts = s.scripts :=
      fun f k s => (runReadLoopGo_fields cfg w f k s).2.2.2.2
    have hB : ∀ f k s, (runReadLoopGo cfg w f k s).1.batchFilePath = s.batchFilePath :=
      fun f k s => (runReadLoopGo_fields cfg w f k s).2.2.2.1
    have hc : ∀ l : List String, (l ++ [scriptPath oi]).contains (scriptPath oi) = true :=
      fun l => List.elem_eq_true_of_mem (List.mem_append_right _ (List.mem_singleton.mpr rfl))
    have herase := erase_append_singleton st.scripts (scriptPath oi) hnotin
    rw [runAttempt, hcanon] at hok
    by_cases hi : w.invokeOk = true
    · rw [hi] at hok
      simp only [if_true, runReadLoop] at hok
      cases hrl : (runReadLoopGo cfg w cfg.maxOutputRetries 0
          { st with
              trace := st.trace ++ [Event.canonCall smi, Event.createScript (scriptPath oi)] ++
                [Event.invoke (scriptPath oi)]
              batchFilePath := some (scriptPath oi)
              scripts := st.scripts ++ [scriptPath oi] }).2 with
      | none =>
        rw [hrl] at hok
        by_cases hr : (roundDesc == "initial") = true
        · simp only [hr, if_true, cleanupScript, hB, hS, hc, Except.map] at hok
          obtain ⟨h1, _⟩ := Prod.mk.injEq .. ▸ (Except.ok.injEq .. ▸ hok)
          rw [← h1]
          exact herase
        · simp only [hr, Bool.false_eq_true, if_false, cleanupScript, hB, hS, hc, Except.map] at hok
          obtain ⟨h1, _⟩ := Prod.mk.injEq .. ▸ (Except.ok.injEq .. ▸ hok)
          rw [← h1]
          exact herase
      | some r0 =>
        rw [hrl] at hok
        simp only [cleanupScript, hB, hS, hc, Except.map] at hok
        obtain ⟨h1, _⟩ := Prod.mk.injEq .. ▸ (Except.ok.injEq .. ▸ hok)
        rw [← h1]
        exact herase
    · simp only [Bool.not_eq_true] at hi
      rw [hi] at hok
      simp only [Bool.false_eq_true, if_false, cleanupScript, hc, Except.map] at hok
      obtain ⟨h1, _⟩ := Prod.mk.injEq .. ▸ (Except.ok.injEq .. ▸ hok)
      rw [← h1]
      exact herase

/-- Witness for C7(b): a fully successful attempt leaves no script file
behind. -/
theorem script_cleanup_spec_witness :
    ((runAttempt defaultConfig idCanon "initial" okWorld "CCO" 3 (initState [] [])).map
      (fun p => p.1.scripts)) = Except.ok [] := by
  have h := script_cleanup_spec.2 defaultConfig idCanon "initial" okWorld "CCO" 3
    (initState [] []) "CCO"
    ((runAttempt defaultConfig idCanon "initial" okWorld "CCO" 3 (initState [] [])).toOption.get
      (by rfl)).1
    ((runAttempt defaultConfig idCanon "initial" okWorld "CCO" 3 (initState [] [])).toOption.get
      (by rfl)).2
    rfl (by simp [initState]) (by rfl)
  rw [show (runAttempt defaultConfig idCanon "initial" okWorld "CCO" 3 (initState [] []))
      = Except.ok ((runAttempt defaultConfig idCanon "initial" okWorld "CCO" 3
        (initState [] [])).toOption.get (by rfl)) from rfl]
  rw [Except.map, h]
  rfl

/-! ## Trace accounting (used by claims C5 and C8) -/

/-- Recognizer for canonicalization events. -/
def isCanonEv : Event → Bool
  | .canonCall _ => true
  | _ => false

/-- Recognizer for output-read events. -/
def isReadEv : Event → Bool
  | .readAttempt _ => true
  | _ => false

/-- Recognizer for a sleep of a given duration. -/
def isSleepEv (d : Nat) : Event → Bool
  | .sleep s => s == d
  | _ => false

/-- The batch counts at which `save_intermediate_results` was called, in
order of occurrence. -/
def savedBatches (tr : List Event) : List Nat :=
  tr.filterMap (fun e => match e with | .saveIntermediate b => some b | _ => none)

/-- The events appended by the output-read loop: no canonicalizations, no
checkpoint saves, at most `fuel` read tries — and exactly `fuel` read
tries each followed by a `retry_delay` sleep when the loop is exhausted. -/
theorem runReadLoopGo_trace (cfg : Config) (w : AttemptWorld) :
    ∀ fuel k s, ∃ tl,
      (runReadLoopGo cfg w fuel k s).1.trace = s.trace ++ tl
      ∧ tl.countP isCanonEv = 0
      ∧ savedBatches tl = []
      ∧ tl.countP isReadEv ≤ fuel
      ∧ ((runReadLoopGo cfg w fuel k s).2 = none →
          tl.countP isReadEv = fuel ∧ tl.countP (isSleepEv cfg.retryDelay) = fuel) := by
  intro fuel
  induction fuel with
  | zero =>
    intro k s
    exact ⟨[], by simp [runReadLoopGo], rfl, rfl, Nat.le_refl 0, fun _ => ⟨rfl, rfl⟩⟩
  | succ n ih =>
    intro k s
    rw [runReadLoopGo]
    cases h : w.reads k with
    | success r =>
      refine ⟨[Event.readAttempt k], by simp, rfl, rfl, by simp [isReadEv], fun hc => ?_⟩
      exact absurd hc (by simp)
    | missingOrEmpty =>
      obtain ⟨tl, htr, hcanon, hsave, hread, hnone⟩ := ih (k + 1)
        { s with trace := s.trace ++ [Event.readAttempt k, Event.sleep cfg.retryDelay] }
      refine ⟨[Event.readAttempt k, Event.sleep cfg.retryDelay] ++ tl, ?_, ?_, ?_, ?_, ?_⟩
      · rw [htr]
        simp
      · simp [List.countP_append, hcanon, isCanonEv]
      · simp [savedBatches, List.filterMap_append] at hsave ⊢
        exact hsave
      · simp [List.countP_append, isReadEv, isSleepEv]
        omega
      · intro hc
        obtain ⟨h1, h2⟩ := hnone hc
        constructor
        · simp [List.countP_append, isReadEv, h1]
        · simp [List.countP_append, isSleepEv, isReadEv, h2]
    | readError =>
      obtain ⟨tl, htr, hcanon, hsave, hread, hnone⟩ := ih (k + 1)
        { s with trace := s.trace ++ [Event.readAttempt k, Event.sleep cfg.retryDelay] }
      refine ⟨[Event.readAttempt k, Event.sleep cfg.retryDelay] ++ tl, ?_, ?_, ?_, ?_, ?_⟩
      · rw [htr]
        simp
      · simp [List.countP_append, hcanon, isCanonEv]
      · simp [savedBatches, List.filterMap_append] at hsave ⊢
        exact hsave
      · simp [List.countP_append, isReadEv, isSleepEv]
        omega
      · intro hc
        obtain ⟨h1, h2⟩ := hnone hc
        constructor
        · simp [List.countP_append, isReadEv, h1]
        · simp [List.countP_append, isSleepEv, isReadEv, h2]

/-- The cleanup appends at most a `removeScript` event and changes no
accumulator. -/
theorem cleanupScript_trace (s s' : RoundState) (h : cleanupScript s = .ok s') :
    ∃ tl, s'.trace = s.trace ++ tl
      ∧ tl.countP isCanonEv = 0
      ∧ savedBatches tl = []
      ∧ tl.countP isReadEv = 0
      ∧ (∀ d, tl.countP (isSleepEv d) = 0) := by
  rw [cleanupScript] at h
  cases hb : s.batchFilePath with
  | none =>
    rw [hb] at h
    cases h
  | some p =>
    rw [hb] at h
    by_cases hc : s.scripts.contains p = true
    · simp only [hc, if_true, Except.ok.injEq] at h
      refine ⟨[Event.removeScript p], ?_, rfl, rfl, rfl, fun d => rfl⟩
      rw [← h]
    · simp only [hc, if_false, Bool.false_eq_true, Except.ok.injEq] at h
      refine ⟨[], by rw [← h]; simp, rfl, rfl, rfl, fun d => rfl⟩

/-- Every attempt that completes (with any outcome) appends to the trace a
block beginning with exactly one canonicalization of the item; when
canonicalization succeeded, the block continues with the creation of the
item's command script and the tool invocation; and the block contains no
checkpoint saves. -/
theorem runAttempt_trace (cfg : Config) (canonFn : String → Option String)
    (roundDesc : String) (w : AttemptWorld) (smi : String) (oi : Nat)
    (st st' : RoundState) (r : AttemptRes)
    (hok : runAttempt cfg canonFn roundDesc w smi oi st = .ok (st', r)) :
    ∃ tl, st'.trace = st.trace ++ Event.canonCall smi :: tl
      ∧ tl.countP isCanonEv = 0
      ∧ savedBatches tl = []
      ∧ (∀ c, canonFn smi = some c →
          ∃ tl2, tl = Event.createScript (scriptPath oi) :: Event.invoke (scriptPath oi) :: tl2) := by
  have hS : ∀ f k s, (runReadLoopGo cfg w f k s).1.scripts = s.scripts :=
    fun f k s => (runReadLoopGo_fields cfg w f k s).2.2.2.2
  have hB : ∀ f k s, (runReadLoopGo cfg w f k s).1.batchFilePath = s.batchFilePath :=
    fun f k s => (runReadLoopGo_fields cfg w f k s).2.2.2.1
  have hcne : ∀ l : List String, (l ++ [scriptPath oi]).contains (scriptPath oi) = true :=
    fun l => List.elem_eq_true_of_mem (List.mem_append_right _ (List.mem_singleton.mpr rfl))
  cases hcanon : canonFn smi with
  | none =>
    simp only [runAttempt, hcanon] at hok
    cases hcl : cleanupScript
        { st with
            trace := st.trace ++ [Event.canonCall smi]
            invalidSmilesIndices := st.invalidSmilesIndices ++ [oi] } with
    | error c =>
      rw [hcl] at hok
      cases hok
    | ok s2 =>
      rw [hcl] at hok
      simp [Except.map] at hok
      obtain ⟨tl, htr, hcn, hsv, _, _⟩ := cleanupScript_trace _ _ hcl
      refine ⟨tl, ?_, hcn, hsv, fun c hcc => by simp [hcanon] at hcc⟩
      rw [← hok.1, htr]
      simp
  | some c0 =>
    simp only [runAttempt, hcanon] at hok
    by_cases hi : w.invokeOk = true
    · rw [hi] at hok
      simp only [if_true, runReadLoop] at hok
      obtain ⟨rtl, hrtr, hrcn, hrsv, _, _⟩ := runReadLoopGo_trace cfg w cfg.maxOutputRetries 0
        { st with
            trace := st.trace ++ [Event.canonCall smi, Event.createScript (scriptPath oi),
              Event.invoke (scriptPath oi)]
            batchFilePath := some (scriptPath oi)
            scripts := st.scripts ++ [scriptPath oi] }
      cases hrl : (runReadLoopGo cfg w cfg.maxOutputRetries 0
          { st with
              trace := st.trace ++ [Event.canonCall smi, Event.createScript (scriptPath oi)] ++
                [Event.invoke (scriptPath oi)]
              batchFilePath := some (scriptPath oi)
              scripts := st.scripts ++ [scriptPath oi] }).2 with
      | none =>
        rw [hrl] at hok
        by_cases hr : (roundDesc == "initial") = true
        · simp [hr, cleanupScript, hB, hS, hcne, Except.map] at hok
          refine ⟨Event.createScript (scriptPath oi) :: Event.invoke (scriptPath oi) ::
            (rtl ++ [Event.removeScript (scriptPath oi)]), ?_, ?_, ?_, fun c hcc => ⟨_, rfl⟩⟩
          · rw [← hok.1]
            dsimp only
            rw [hrtr]
            dsimp only
            simp
          · simp [List.countP_append, hrcn, isCanonEv]
          · simp [savedBatches, List.filterMap_append] at hrsv ⊢
            exact hrsv
        · simp [hr, cleanupScript, hB, hS, hcne, Except.map] at hok
          refine ⟨Event.createScript (scriptPath oi) :: Event.invoke (scriptPath oi) ::
            (rtl ++ [Event.removeScript (scriptPath oi)]), ?_, ?_, ?_, fun c hcc => ⟨_, rfl⟩⟩
          · rw [← hok.1]
            dsimp only
            rw [hrtr]
            dsimp only
            simp
          · simp [List.countP_append, hrcn, isCanonEv]
          · simp [savedBatches, List.filterMap_append] at hrsv ⊢
            exact hrsv
      | some r0 =>
        rw [hrl] at hok
        simp [cleanupScript, hB, hS, hcne, Except.map] at hok
        refine ⟨Event.createScript (scriptPath oi) :: Event.invoke (scriptPath oi) ::
          (rtl ++ [Event.removeScript (scriptPath oi)]), ?_, ?_, ?_, fun c hcc => ⟨_, rfl⟩⟩
        · rw [← hok.1]
          dsimp only
          rw [hrtr]
          dsimp only
          simp
        · simp [List.countP_append, hrcn, isCanonEv]
        · simp [savedBatches, List.filterMap_append] at hrsv ⊢
          exact hrsv
    · simp only [Bool.not_eq_true] at hi
      rw [hi] at hok
      simp [cleanupScript, hcne, Except.map] at hok
      refine ⟨Event.createScript (scriptPath oi) :: Event.invoke (scriptPath oi) ::
        [Event.sleep cfg.retryDelay, Event.removeScript (scriptPath oi)], ?_, rfl, rfl,
        fun c hcc => ⟨_, rfl⟩⟩
      rw [← hok.1]

/-- Each completed attempt performs exactly one canonicalization. -/
theorem runAttempt_canonCount (cfg : Config) (canonFn : String → Option String)
    (roundDesc : String) (w : AttemptWorld) (smi : String) (oi : Nat)
    (st st' : RoundState) (r : AttemptRes)
    (hok : runAttempt cfg canonFn roundDesc w smi oi st = .ok (st', r)) :
    st'.trace.countP isCanonEv = st.trace.countP isCanonEv + 1 := by
  obtain ⟨tl, htr, hcn, _, _⟩ := runAttempt_trace cfg canonFn roundDesc w smi oi st st' r hok
  rw [htr]
  simp [List.countP_append, List.countP_cons, isCanonEv, hcn]

/-- The retry loop with `fuel` iterations left performs at most `fuel`
more canonicalizations (attempts). -/
theorem runRetryLoop_canonCount (cfg : Config) (canonFn : String → Option String)
    (roundDesc : String) (itemEnv : Nat → AttemptWorld) (smi : String) (oi : Nat) :
    ∀ fuel j st st' b,
      runRetryLoop cfg canonFn roundDesc itemEnv smi oi fuel j st = .ok (st', b) →
      st'.trace.countP isCanonEv ≤ st.trace.countP isCanonEv + fuel := by
  intro fuel
  induction fuel with
  | zero =>
    intro j st st' b h
    rw [runRetryLoop] at h
    simp only [Except.ok.injEq] at h
    obtain ⟨h1, _⟩ := Prod.mk.injEq .. ▸ h
    rw [← h1]
    omega
  | succ n ih =>
    intro j st st' b h
    rw [runRetryLoop] at h
    cases hA : runAttempt cfg canonFn roundDesc (itemEnv j) smi oi st with
    | error c =>
      rw [hA] at h
      cases h
    | ok p =>
      rw [hA] at h
      obtain ⟨st1, r⟩ := p
      have hcnt := runAttempt_canonCount cfg canonFn roundDesc (itemEnv j) smi oi st st1 r hA
      cases r with
      | gotRec r0 =>
        simp only [Except.ok.injEq] at h
        obtain ⟨h1, _⟩ := Prod.mk.injEq .. ▸ h
        rw [← h1, hcnt]
        omega
      | invokeErr =>
        have := ih (j + 1) st1 st' b h
        omega
      | canonNone =>
        simp only [Except.ok.injEq] at h
        obtain ⟨h1, _⟩ := Prod.mk.injEq .. ▸ h
        rw [← h1, hcnt]
        omega
      | readExhausted =>
        simp only [Except.ok.injEq] at h
        obtain ⟨h1, _⟩ := Prod.mk.injEq .. ▸ h
        rw [← h1, hcnt]
        omega

/-! ## Claim C5: the per-item retry loop -/

/-- C5: (1) the retry loop of an item makes at most `max_retries` attempts
(canonicalization events); (2) every attempt starts by re-canonicalizing
the identifier and, when canonicalization yields a result, re-creates the
command script and re-invokes the tool before reading; (3) result reading
is retried up to `max_output_retries` times, sleeping `retry_delay` after
each failed try (exactly `max_output_retries` tries and that many
`retry_delay` sleeps when the loop is exhausted); (4) a successful read
short-circuits the remaining retries (the loop returns at once with
`success = True`); (5) an invocation exception sleeps `retry_delay`
exactly once and consumes exactly one of the `max_retries` attempts. -/
theorem retry_loop_semantics :
    (∀ (cfg : Config) (canonFn : String → Option String) (roundDesc : String)
       (itemEnv : Nat → AttemptWorld) (smi : String) (oi : Nat) (st st' : RoundState) (b : Bool),
       runRetryLoop cfg canonFn roundDesc itemEnv smi oi cfg.maxRetries 0 st = .ok (st', b) →
       st'.trace.countP isCanonEv ≤ st.trace.countP isCanonEv + cfg.maxRetries)
    ∧ (∀ (cfg : Config) (canonFn : String → Option String) (roundDesc : String)
         (w : AttemptWorld) (smi : String) (oi : Nat) (st st' : RoundState) (r : AttemptRes),
        runAttempt cfg canonFn roundDesc w smi oi st = .ok (st', r) →
        ∃ tl, st'.trace = st.trace ++ Event.canonCall smi :: tl
          ∧ (∀ c, canonFn smi = some c →
              ∃ tl2, tl = Event.createScript (scriptPath oi) :: Event.invoke (scriptPath oi) :: tl2))
    ∧ (∀ (cfg : Config) (w : AttemptWorld) (s : RoundState),
        ∃ tl, (runReadLoop cfg w s).1.trace = s.trace ++ tl
          ∧ tl.countP isReadEv ≤ cfg.maxOutputRetries
          ∧ ((runReadLoop cfg w s).2 = none →
              tl.countP isReadEv = cfg.maxOutputRetries
              ∧ tl.countP (isSleepEv cfg.retryDelay) = cfg.maxOutputRetries))
    ∧ (∀ (cfg : Config) (canonFn : String → Option String) (roundDesc : String)
         (itemEnv : Nat → AttemptWorld) (smi : String) (oi : Nat) (fuel j : Nat)
         (st st' : RoundState) (r0 : Rec),
        runAttempt cfg canonFn roundDesc (itemEnv j) smi oi st = .ok (st', AttemptRes.gotRec r0) →
        runRetryLoop cfg canonFn roundDesc itemEnv smi oi (fuel + 1) j st = .ok (st', true))
    ∧ (∀ (cfg : Config) (canonFn : String → Option String) (roundDesc : String)
         (itemEnv : Nat → AttemptWorld) (smi : String) (oi : Nat) (c : String) (fuel j : Nat)
         (st : RoundState),
        canonFn smi = some c → (itemEnv j).invokeOk = false →
        ∃ st', runAttempt cfg canonFn roundDesc (itemEnv j) smi oi st
            = .ok (st', AttemptRes.invokeErr)
          ∧ runRetryLoop cfg canonFn roundDesc itemEnv smi oi (fuel + 1) j st
            = runRetryLoop cfg canonFn roundDesc itemEnv smi oi fuel (j + 1) st'
          ∧ st'.trace.countP (isSleepEv cfg.retryDelay)
            = st.trace.countP (isSleepEv cfg.retryDelay) + 1) := by
  refine ⟨?_, ?_, ?_, ?_, ?_⟩
  · intro cfg canonFn roundDesc itemEnv smi oi st st' b h
    exact runRetryLoop_canonCount cfg canonFn roundDesc itemEnv smi oi cfg.maxRetries 0 st st' b h
  · intro cfg canonFn roundDesc w smi oi st st' r hok
    obtain ⟨tl, htr, _, _, hinv⟩ := runAttempt_trace cfg canonFn roundDesc w smi oi st st' r hok
    exact ⟨tl, htr, hinv⟩
  · intro cfg w s
    obtain ⟨tl, htr, _, _, hle, hnone⟩ := runReadLoopGo_trace cfg w cfg.maxOutputRetries 0 s
    exact ⟨tl, htr, hle, hnone⟩
  · intro cfg canonFn roundDesc itemEnv smi oi fuel j st st' r0 hA
    rw [runRetryLoop, hA]
  · intro cfg canonFn roundDesc itemEnv smi oi c fuel j st hcanon hinv
    obtain ⟨st', hA, _, _, _, _, htr⟩ :=
      runAttempt_invokeErr cfg canonFn roundDesc (itemEnv j) smi oi st c hcanon hinv
    refine ⟨st', hA, by rw [runRetryLoop, hA], ?_⟩
    rw [htr]
    simp [List.countP_append, List.countP_cons, isSleepEv]

/-- Witness for C5: on a concrete fully successful attempt, the retry loop
(with the default `max_retries = 3`) short-circuits immediately with
`success = True`. -/
theorem retry_loop_semantics_witness :
    runRetryLoop defaultConfig idCanon "initial" (fun _ => okWorld) "CCO" 0 3 0 (initState [] [])
      = .ok (okAttemptState, true) := by
  have hA : runAttempt defaultConfig idCanon "initial" ((fun _ : Nat => okWorld) 0) "CCO" 0
      (initState [] []) = .ok (okAttemptState, AttemptRes.gotRec sampleRec) := rfl
  exact retry_loop_semantics.2.2.2.1 defaultConfig idCanon "initial" (fun _ => okWorld)
    "CCO" 0 2 0 (initState [] []) okAttemptState sampleRec hA

/-! ## Claim C8: checkpoint cadence -/

/-- An attempt writes no checkpoint. -/
theorem runAttempt_saved (cfg : Config) (canonFn : String → Option String)
    (roundDesc : String) (w : AttemptWorld) (smi : String) (oi : Nat)
    (st st' : RoundState) (r : AttemptRes)
    (hok : runAttempt cfg canonFn roundDesc w smi oi st = .ok (st', r)) :
    savedBatches st'.trace = savedBatches st.trace := by
  obtain ⟨tl, htr, _, hsv, _⟩ := runAttempt_trace cfg canonFn roundDesc w smi oi st st' r hok
  rw [htr]
  simp only [savedBatches] at hsv ⊢
  simp [List.filterMap_append, hsv]

/-- The retry loop writes no checkpoint. -/
theorem runRetryLoop_saved (cfg : Config) (canonFn : String → Option String)
    (roundDesc : String) (itemEnv : Nat → AttemptWorld) (smi : String) (oi : Nat) :
    ∀ fuel j st st' b,
      runRetryLoop cfg canonFn roundDesc itemEnv smi oi fuel j st = .ok (st', b) →
      savedBatches st'.trace = savedBatches st.trace := by
  intro fuel
  induction fuel with
  | zero =>
    intro j st st' b h
    rw [runRetryLoop] at h
    simp only [Except.ok.injEq] at h
    obtain ⟨h1, _⟩ := Prod.mk.injEq .. ▸ h
    rw [← h1]
  | succ n ih =>
    intro j st st' b h
    rw [runRetryLoop] at h
    cases hA : runAttempt cfg canonFn roundDesc (itemEnv j) smi oi st with
    | error c =>
      rw [hA] at h
      cases h
    | ok p =>
      rw [hA] at h
      obtain ⟨st1, r⟩ := p
      have hsv := runAttempt_saved cfg canonFn roundDesc (itemEnv j) smi oi st st1 r hA
      cases r with
      | gotRec r0 =>
        simp only [Except.ok.injEq] at h
        obtain ⟨h1, _⟩ := Prod.mk.injEq .. ▸ h
        rw [← h1, hsv]
      | invokeErr =>
        rw [ih (j + 1) st1 st' b h, hsv]
      | canonNone =>
        simp only [Except.ok.injEq] at h
        obtain ⟨h1, _⟩ := Prod.mk.injEq .. ▸ h
        rw [← h1, hsv]
      | readExhausted =>
        simp only [Except.ok.injEq] at h
        obtain ⟨h1, _⟩ := Prod.mk.injEq .. ▸ h
        rw [← h1, hsv]

/-- Processing one item writes no checkpoint. -/
theorem processOne_saved (cfg : Config) (canonFn : String → Option String)
    (roundDesc : String) (itemEnv : Nat → AttemptWorld) (smi : String) (oi : Nat)
    (st st' : RoundState)
    (hok : processOne cfg canonFn roundDesc itemEnv smi oi st = .ok st') :
    savedBatches st'.trace = savedBatches st.trace := by
  rw [processOne] at hok
  cases hL : runRetryLoop cfg canonFn roundDesc itemEnv smi oi cfg.maxRetries 0 st with
  | error c =>
    rw [hL] at hok
    cases hok
  | ok p =>
    rw [hL] at hok
    obtain ⟨st1, b⟩ := p
    have hsv := runRetryLoop_saved cfg canonFn roundDesc itemEnv smi oi cfg.maxRetries 0 st st1 b hL
    simp only [Except.ok.injEq] at hok
    cases b with
    | true =>
      simp only [if_true] at hok
      rw [← hok]
      simp only [savedBatches] at hsv ⊢
      simp [List.filterMap_append, hsv]
    | false =>
      by_cases hr : (roundDesc == "initial") = true
      · simp only [Bool.false_eq_true, if_false, hr, if_true] at hok
        rw [← hok]
        simp only [savedBatches] at hsv ⊢
        simp [List.filterMap_append, hsv]
      · simp only [Bool.false_eq_true, hr, if_false] at hok
        rw [← hok]
        simp only [savedBatches] at hsv ⊢
        simp [List.filterMap_append, hsv]

/-- Processing a batch of items writes no checkpoint. -/
theorem runChunkItems_saved (cfg : Config) (canonFn : String → Option String)
    (roundDesc : String) (env : Nat → Nat → AttemptWorld) :
    ∀ (chunk : List (String × Nat)) (pos : Nat) (st st' : RoundState),
      runChunkItems cfg canonFn roundDesc env chunk pos st = .ok st' →
      savedBatches st'.trace = savedBatches st.trace := by
  intro chunk
  induction chunk with
  | nil =>
    intro pos st st' h
    rw [runChunkItems] at h
    cases h
    rfl
  | cons item rest ih =>
    intro pos st st' h
    obtain ⟨smi, oi⟩ := item
    rw [runChunkItems] at h
    cases hP : processOne cfg canonFn roundDesc (env pos) smi oi st with
    | error c =>
      rw [hP] at h
      cases h
    | ok st1 =>
      rw [hP] at h
      rw [ih (pos + 1) st1 st' h,
        processOne_saved cfg canonFn roundDesc (env pos) smi oi st st1 hP]

/-- The batch loop appends exactly the checkpoint saves at every batch
count that is a multiple of 10, and ends with `batch_count` increased by
the number of batches. -/
theorem runBatches_saves (cfg : Config) (canonFn : String → Option String)
    (roundDesc : String) (env : Nat → Nat → AttemptWorld) :
    ∀ (chunks : List (List (String × Nat))) (pos batchCount : Nat) (st st' : RoundState)
      (bcEnd : Nat),
      runBatches cfg canonFn roundDesc env chunks pos batchCount st = .ok (st', bcEnd) →
      bcEnd = batchCount + chunks.length
      ∧ savedBatches st'.trace = savedBatches st.trace
          ++ (List.range' (batchCount + 1) chunks.length).filter (fun b => b % 10 == 0) := by
  intro chunks
  induction chunks with
  | nil =>
    intro pos batchCount st st' bcEnd h
    rw [runBatches] at h
    simp only [Except.ok.injEq] at h
    obtain ⟨h1, h2⟩ := Prod.mk.injEq .. ▸ h
    rw [← h1, ← h2]
    simp
  | cons chunk rest ih =>
    intro pos batchCount st st' bcEnd h
    rw [runBatches] at h
    cases hC : runChunkItems cfg canonFn roundDesc env chunk pos st with
    | error c =>
      rw [hC] at h
      cases h
    | ok st1 =>
      rw [hC] at h
      have hsv1 := runChunkItems_saved cfg canonFn roundDesc env chunk pos st st1 hC
      obtain ⟨hbc, hsv⟩ := ih (pos + chunk.length) (batchCount + 1) _ st' bcEnd h
      refine ⟨by rw [hbc]; simp [Nat.add_assoc, Nat.add_comm 1 rest.length], ?_⟩
      rw [hsv]
      have hpause : ∀ s2 : RoundState, savedBatches (if rest.isEmpty then s2
          else { s2 with trace := s2.trace ++ [Event.pauseBetweenBatches] }).trace
          = savedBatches s2.trace := by
        intro s2
        by_cases hre : rest.isEmpty
        · rw [if_pos hre]
        · rw [if_neg hre]
          simp [savedBatches, List.filterMap_append]
      rw [hpause]
      simp only [List.length_cons]
      by_cases hm : ((batchCount + 1) % 10 == 0) = true
      · rw [if_pos hm]
        simp only [savedBatches, List.filterMap_append] at hsv1 ⊢
        rw [hsv1]
        rw [List.range'_succ, List.filter_cons]
        simp only [hm, if_true]
        simp
      · rw [if_neg hm]
        rw [hsv1]
        rw [List.range'_succ, List.filter_cons]
        simp only [hm, Bool.false_eq_true, if_false]

/-- The batch slicing produces `ceil(n / bs)` batches. -/
theorem chunkListGo_length {α : Type} (bs : Nat) (hbs : 0 < bs) :
    ∀ (fuel : Nat) (l : List α), l.length ≤ fuel →
      (chunkListGo bs fuel l).length = (l.length + bs - 1) / bs := by
  intro fuel
  induction fuel with
  | zero =>
    intro l hl
    have hnil : l = [] := List.eq_nil_of_length_eq_zero (Nat.le_zero.mp hl)
    subst hnil
    rw [chunkListGo]
    simp only [List.length_nil]
    rw [Nat.div_eq_of_lt (by omega)]
  | succ n ih =>
    intro l hl
    cases l with
    | nil =>
      rw [chunkListGo]
      simp only [List.length_nil]
      rw [Nat.div_eq_of_lt (by omega)]
    | cons a as =>
      rw [chunkListGo]
      simp only [List.length_cons]
      have hle : ((a :: as).drop bs).length ≤ n := by
        simp only [List.length_cons] at hl
        simp only [List.length_drop, List.length_cons]
        omega
      rw [ih _ hle]
      simp only [List.length_drop, List.length_cons]
      have hrhs : (as.length + 1 + bs - 1) / bs = (as.length + 1 - 1) / bs + 1 := by
        rw [show as.length + 1 + bs - 1 = (as.length + 1 - 1) + bs by omega]
        exact Nat.add_div_right _ hbs
      rw [hrhs]
      by_cases hcase : bs ≤ as.length + 1
      · rw [show as.length + 1 - bs + bs - 1 = as.length + 1 - 1 by omega]
      · rw [show as.length + 1 - bs = 0 by omega]
        rw [Nat.div_eq_of_lt (by omega), Nat.div_eq_of_lt (by omega)]

/-- An attempt on an item whose canonicalization succeeds never crashes. -/
theorem runAttempt_isOk (cfg : Config) (canonFn : String → Option String)
    (roundDesc : String) (w : AttemptWorld) (smi : String) (oi : Nat) (st : RoundState)
    (c : String) (hcanon : canonFn smi = some c) :
    ∃ p, runAttempt cfg canonFn roundDesc w smi oi st = .ok p := by
  have hS : ∀ f k s, (runReadLoopGo cfg w f k s).1.scripts = s.scripts :=
    fun f k s => (runReadLoopGo_fields cfg w f k s).2.2.2.2
  have hB : ∀ f k s, (runReadLoopGo cfg w f k s).1.batchFilePath = s.batchFilePath :=
    fun f k s => (runReadLoopGo_fields cfg w f k s).2.2.2.1
  have hcne : ∀ l : List String, (l ++ [scriptPath oi]).contains (scriptPath oi) = true :=
    fun l => List.elem_eq_true_of_mem (List.mem_append_right _ (List.mem_singleton.mpr rfl))
  rw [runAttempt, hcanon]
  by_cases hi : w.invokeOk = true
  · rw [hi]
    simp only [if_true, runReadLoop]
    cases hrl : (runReadLoopGo cfg w cfg.maxOutputRetries 0
        { st with
            trace := st.trace ++ [Event.canonCall smi, Event.createScript (scriptPath oi)] ++
              [Event.invoke (scriptPath oi)]
            batchFilePath := some (scriptPath oi)
            scripts := st.scripts ++ [scriptPath oi] }).2 with
    | some r0 =>
      simp [cleanupScript, hB, hS, hcne, Except.map]
    | none =>
      by_cases hr : (roundDesc == "initial") = true
      · simp [hr, cleanupScript, hB, hS, hcne, Except.map]
      · simp [hr, cleanupScript, hB, hS, hcne, Except.map]
  · simp only [Bool.not_eq_true] at hi
    rw [hi]
    simp [cleanupScript, hcne, Except.map]

/-- The retry loop never crashes when canonicalization succeeds. -/
theorem runRetryLoop_isOk (cfg : Config) (canonFn : String → Option String)
    (roundDesc : String) (itemEnv : Nat → AttemptWorld) (smi : String) (oi : Nat)
    (c : String) (hcanon : canonFn smi = some c) :
    ∀ fuel j st, ∃ p, runRetryLoop cfg canonFn roundDesc itemEnv smi oi fuel j st = .ok p := by
  intro fuel
  induction fuel with
  | zero => exact fun j st => ⟨(st, false), rfl⟩
  | succ n ih =>
    intro j st
    obtain ⟨p, hA⟩ := runAttempt_isOk cfg canonFn roundDesc (itemEnv j) smi oi st c hcanon
    obtain ⟨st1, r⟩ := p
    cases r with
    | gotRec r0 => exact ⟨(st1, true), by rw [runRetryLoop, hA]⟩
    | invokeErr =>
      obtain ⟨q, hq⟩ := ih (j + 1) st1
      exact ⟨q, by rw [runRetryLoop, hA]; exact hq⟩
    | canonNone => exact ⟨(st1, false), by rw [runRetryLoop, hA]⟩
    | readExhausted => exact ⟨(st1, false), by rw [runRetryLoop, hA]⟩

/-- Processing one item never crashes when canonicalization succeeds. -/
theorem processOne_isOk (cfg : Config) (canonFn : String → Option String)
    (roundDesc : String) (itemEnv : Nat → AttemptWorld) (smi : String) (oi : Nat)
    (st : RoundState) (c : String) (hcanon : canonFn smi = some c) :
    ∃ s, processOne cfg canonFn roundDesc itemEnv smi oi st = .ok s := by
  obtain ⟨p, hL⟩ := runRetryLoop_isOk cfg canonFn roundDesc itemEnv smi oi c hcanon
    cfg.maxRetries 0 st
  obtain ⟨st1, b⟩ := p
  cases hP : processOne cfg canonFn roundDesc itemEnv smi oi st with
  | ok s => exact ⟨s, rfl⟩
  | error c2 =>
    rw [processOne, hL] at hP
    simp at hP

/-- A batch never crashes when every canonicalization succeeds. -/
theorem runChunkItems_isOk (cfg : Config) (canonFn : String → Option String)
    (roundDesc : String) (env : Nat → Nat → AttemptWorld)
    (hcanonAll : ∀ s, ∃ c, canonFn s = some c) :
    ∀ (chunk : List (String × Nat)) (pos : Nat) (st : RoundState),
      ∃ s, runChunkItems cfg canonFn roundDesc env chunk pos st = .ok s := by
  intro chunk
  induction chunk with
  | nil => exact fun pos st => ⟨st, rfl⟩
  | cons item rest ih =>
    intro pos st
    obtain ⟨smi, oi⟩ := item
    obtain ⟨c, hc⟩ := hcanonAll smi
    obtain ⟨st1, hP⟩ := processOne_isOk cfg canonFn roundDesc (env pos) smi oi st c hc
    obtain ⟨s, hs⟩ := ih (pos + 1) st1
    exact ⟨s, by rw [runChunkItems, hP]; exact hs⟩

/-- The batch loop never crashes when every canonicalization succeeds. -/
theorem runBatches_isOk (cfg : Config) (canonFn : String → Option String)
    (roundDesc : String) (env : Nat → Nat → AttemptWorld)
    (hcanonAll : ∀ s, ∃ c, canonFn s = some c) :
    ∀ (chunks : List (List (String × Nat))) (pos batchCount : Nat) (st : RoundState),
      ∃ p, runBatches cfg canonFn roundDesc env chunks pos batchCount st = .ok p := by
  intro chunks
  induction chunks with
  | nil => exact fun pos batchCount st => ⟨(st, batchCount), rfl⟩
  | cons chunk rest ih =>
    intro pos batchCount st
    obtain ⟨st1, hC⟩ := runChunkItems_isOk cfg canonFn roundDesc env hcanonAll chunk pos st
    obtain ⟨p, hp⟩ := ih (pos + chunk.length) (batchCount + 1) _
    exact ⟨p, by rw [runBatches, hC]; exact hp⟩

/-- A whole round never crashes when every canonicalization succeeds. -/
theorem processSmilesBatch_isOk (cfg : Config) (canonFn : String → Option String)
    (env : Nat → Nat → AttemptWorld) (items : List (String × Nat)) (roundDesc : String)
    (invalidIn : List Nat) (scriptsIn : List String)
    (hcanonAll : ∀ s, ∃ c, canonFn s = some c) :
    ∃ s, processSmilesBatch cfg canonFn env items roundDesc invalidIn scriptsIn = .ok s := by
  obtain ⟨p, hp⟩ := runBatches_isOk cfg canonFn roundDesc env hcanonAll
    (chunkList cfg.batchSize items) 0 0 (initState invalidIn scriptsIn)
  obtain ⟨st, bc⟩ := p
  simp only [processSmilesBatch, hp]
  split
  · exact ⟨_, rfl⟩
  · exact ⟨_, rfl⟩

/-- C8: within a round, a checkpoint is written after every batch whose
count is a multiple of 10, and once more at the end of the round exactly
when the total batch count is not a multiple of 10; the number of batches
is `ceil(items / batch_size)`; in particular with `batch_size = 100`,
1050 items and zero failures the round writes exactly the mid-run
checkpoint after batch 10 and the final checkpoint after batch 11. -/
theorem checkpoint_cadence :
    (∀ (cfg : Config) (canonFn : String → Option String) (env : Nat → Nat → AttemptWorld)
       (items : List (String × Nat)) (roundDesc : String) (invalidIn : List Nat)
       (scriptsIn : List String) (st' : RoundState),
       processSmilesBatch cfg canonFn env items roundDesc invalidIn scriptsIn = .ok st' →
       savedBatches st'.trace =
         ((List.range' 1 (chunkList cfg.batchSize items).length).filter (fun b => b % 10 == 0))
         ++ (if (chunkList cfg.batchSize items).length % 10 != 0
             then [(chunkList cfg.batchSize items).length] else []))
    ∧ (∀ (bs : Nat), 0 < bs → ∀ (l : List (String × Nat)),
        (chunkList bs l).length = (l.length + bs - 1) / bs)
    ∧ (∃ st', processSmilesBatch defaultConfig idCanon okEnv
          ((List.range 1050).map (fun i => ("C", i))) "initial" [] [] = .ok st'
        ∧ savedBatches st'.trace = [10, 11]) := by
  have hmain : ∀ (cfg : Config) (canonFn : String → Option String) (env : Nat → Nat → AttemptWorld)
      (items : List (String × Nat)) (roundDesc : String) (invalidIn : List Nat)
      (scriptsIn : List String) (st' : RoundState),
      processSmilesBatch cfg canonFn env items roundDesc invalidIn scriptsIn = .ok st' →
      savedBatches st'.trace =
        ((List.range' 1 (chunkList cfg.batchSize items).length).filter (fun b => b % 10 == 0))
        ++ (if (chunkList cfg.batchSize items).length % 10 != 0
            then [(chunkList cfg.batchSize items).length] else []) := by
    intro cfg canonFn env items roundDesc invalidIn scriptsIn st' hok
    rw [processSmilesBatch] at hok
    cases hB : runBatches cfg canonFn roundDesc env (chunkList cfg.batchSize items) 0 0
        (initState invalidIn scriptsIn) with
    | error c =>
      rw [hB] at hok
      cases hok
    | ok p =>
      rw [hB] at hok
      obtain ⟨st, bc⟩ := p
      obtain ⟨hbc, hsv⟩ := runBatches_saves cfg canonFn roundDesc env
        (chunkList cfg.batchSize items) 0 0 (initState invalidIn scriptsIn) st bc hB
      have hbc' : bc = (chunkList cfg.batchSize items).length := by omega
      subst hbc'
      have hinit : savedBatches (initState invalidIn scriptsIn).trace = [] := rfl
      rw [hinit, List.nil_append] at hsv
      simp only [Nat.zero_add] at hsv
      dsimp only at hok
      by_cases hm : ((chunkList cfg.batchSize items).length % 10 != 0) = true
      · rw [if_pos hm] at hok
        simp only [Except.ok.injEq] at hok
        rw [← hok, if_pos hm]
        simp only [savedBatches, List.filterMap_append] at hsv ⊢
        rw [hsv]
        simp
      · rw [if_neg hm] at hok
        simp only [Except.ok.injEq] at hok
        rw [← hok, if_neg hm, List.append_nil]
        exact hsv
  refine ⟨hmain, ?_, ?_⟩
  · intro bs hbs l
    exact chunkListGo_length bs hbs l.length l (Nat.le_refl _)
  · obtain ⟨st', hok⟩ := processSmilesBatch_isOk defaultConfig idCanon okEnv
      ((List.range 1050).map (fun i => ("C", i))) "initial" [] [] (fun s => ⟨s, rfl⟩)
    refine ⟨st', hok, ?_⟩
    rw [hmain defaultConfig idCanon okEnv _ "initial" [] [] st' hok]
    have hlen : (chunkList defaultConfig.batchSize
        ((List.range 1050).map (fun i => ("C", i)))).length = 11 := by
      rw [chunkList]
      rw [chunkListGo_length defaultConfig.batchSize (by decide) _ _ (Nat.le_refl _)]
      simp only [List.length_map, List.length_range]
      decide
    rw [hlen]
    decide

/-- Witness for C8: a one-item round (one batch) writes exactly the
end-of-round checkpoint after batch 1, and with batch size 100 a one-item
work list forms exactly one batch. -/
theorem checkpoint_cadence_witness :
    savedBatches oneItemRoundState.trace = [1]
    ∧ (chunkList 100 [("C", 0)]).length = 1 := by
  constructor
  · have hok : oneItemRound = Except.ok oneItemRoundState := rfl
    have h := checkpoint_cadence.1 defaultConfig idCanon okEnv [("CCO", 0)] "initial" [] []
      oneItemRoundState hok
    rw [h]
    decide
  · have h := checkpoint_cadence.2.1 100 (by decide) [("C", 0)]
    simpa using h

/-! ## Claim C9: sentinel identifiers -/

/-- Every dispatched pair comes from the validation input list. -/
theorem validateSmiles_valid_sub (rdkit : String → Bool) :
    ∀ (l : List (String × Nat)), ∀ p ∈ (validateSmiles rdkit l).2, p ∈ l := by
  intro l
  induction l with
  | nil => intro p hp; cases hp
  | cons q rest ih =>
    intro p hp
    obtain ⟨smi, oi⟩ := q
    rw [validateSmiles] at hp
    by_cases hv : rdkit smi = true
    · rw [if_pos hv] at hp
      rcases List.mem_cons.mp hp with rfl | hp
      · exact List.mem_cons_self ..
      · exact List.mem_cons_of_mem _ (ih p hp)
    · rw [if_neg hv] at hp
      exact List.mem_cons_of_mem _ (ih p hp)

/-- Every invalid-format index comes from a pair of the validation input. -/
theorem validateSmiles_invalid_sub (rdkit : String → Bool) :
    ∀ (l : List (String × Nat)), ∀ i ∈ (validateSmiles rdkit l).1, ∃ smi, (smi, i) ∈ l := by
  intro l
  induction l with
  | nil => intro i hi; cases hi
  | cons q rest ih =>
    intro i hi
    obtain ⟨smi, oi⟩ := q
    rw [validateSmiles] at hi
    by_cases hv : rdkit smi = true
    · rw [if_pos hv] at hi
      obtain ⟨s0, hs0⟩ := ih i hi
      exact ⟨s0, List.mem_cons_of_mem _ hs0⟩
    · rw [if_neg hv] at hi
      rcases List.mem_cons.mp hi with rfl | hi
      · exact ⟨smi, List.mem_cons_self ..⟩
      · obtain ⟨s0, hs0⟩ := ih i hi
        exact ⟨s0, List.mem_cons_of_mem _ hs0⟩

/-- An index kept by the sentinel filter holds a non-sentinel string. -/
theorem validSmilesIndicesOf_not_sentinel (all : List String) (i : Nat)
    (h : i ∈ validSmilesIndicesOf all) : all.getD i "" ≠ casNotFound := by
  rw [validSmilesIndicesOf] at h
  obtain ⟨p, hp, hpi⟩ := List.mem_map.mp h
  obtain ⟨hpe, hbn⟩ := List.mem_filter.mp hp
  have hget : all[p.1]? = some p.2 := List.mk_mem_enum_iff_getElem?.mp (by
    obtain ⟨p1, p2⟩ := p
    exact hpe)
  rw [← hpi, List.getD_eq_getElem?_getD, hget]
  simpa using hbn

/-- C9: sentinel identifiers ("CAS number not found") are recognized
before any structural parsing — they are removed from the work list before
validation, so they are never given to the parser oracle nor dispatched to
the external tool; they are recorded in `invalid_cas_indices`
(PlaceholderSkipped) and never in `invalid_smiles_indices`
(InvalidFormat).  On the three-row scenario input, row 0 is validated for
dispatch, row 1 is marked invalid-format, row 2 is marked
placeholder-skipped, and the assembled table keeps all three rows in input
order. -/
theorem sentinel_routing :
    (∀ all : List String, ∀ smi ∈ filteredSmilesOf all, smi ≠ casNotFound)
    ∧ (∀ (all : List String) (rdkit : String → Bool),
        ∀ p ∈ (validateSmiles rdkit
            ((filteredSmilesOf all).zip (validSmilesIndicesOf all))).2,
          p.1 ≠ casNotFound)
    ∧ (∀ (all : List String) (rdkit : String → Bool) (i : Nat),
        i < all.length → all.getD i "" = casNotFound →
        i ∈ invalidCasIndicesOf all
        ∧ i ∉ (validateSmiles rdkit
            ((filteredSmilesOf all).zip (validSmilesIndicesOf all))).1)
    ∧ validateSmiles rdkitDemo
        ((filteredSmilesOf ["CCO", "not a molecule", "CAS number not found"]).zip
          (validSmilesIndicesOf ["CCO", "not a molecule", "CAS number not found"]))
        = ([1], [("CCO", 0)])
    ∧ invalidCasIndicesOf ["CCO", "not a molecule", "CAS number not found"] = [2]
    ∧ assembleResultsTable [(sampleRec, 0)] ["CCO", "not a molecule", "CAS number not found"]
        = [("CCO", sampleRec), ("not a molecule", emptyRow), ("CAS number not found", emptyRow)] := by
  have hfil : ∀ all : List String, ∀ smi ∈ filteredSmilesOf all, smi ≠ casNotFound := by
    intro all smi h
    obtain ⟨_, hbn⟩ := List.mem_filter.mp h
    simpa using hbn
  refine ⟨hfil, ?_, ?_, ?_, ?_, ?_⟩
  · intro all rdkit p hp
    have hz := validateSmiles_valid_sub rdkit _ p hp
    exact hfil all p.1 (List.of_mem_zip hz).1
  · intro all rdkit i hlt hget
    constructor
    · rw [invalidCasIndicesOf]
      have hget' : all[i]? = some casNotFound := by
        rw [List.getD_eq_getElem?_getD, List.getElem?_eq_getElem hlt] at hget
        simp only [Option.getD_some] at hget
        rw [List.getElem?_eq_getElem hlt, hget]
      refine List.mem_map.mpr ⟨(i, casNotFound), List.mem_filter.mpr ⟨?_, by simp⟩, rfl⟩
      exact List.mk_mem_enum_iff_getElem?.mpr hget'
    · intro hmem
      obtain ⟨smi0, hz⟩ := validateSmiles_invalid_sub rdkit _ i hmem
      exact validSmilesIndicesOf_not_sentinel all i (List.of_mem_zip hz).2 hget
  · rfl
  · rfl
  · rfl

/-- Witness for C9: in the scenario input, the sentinel at index 2 is
routed to the placeholder-skipped list and not to the invalid-format
list. -/
theorem sentinel_routing_witness :
    2 ∈ invalidCasIndicesOf ["CCO", "not a molecule", "CAS number not found"]
    ∧ 2 ∉ (validateSmiles rdkitDemo
        ((filteredSmilesOf ["CCO", "not a molecule", "CAS number not found"]).zip
          (validSmilesIndicesOf ["CCO", "not a molecule", "CAS number not found"]))).1 := by
  exact sentinel_routing.2.2.1 ["CCO", "not a molecule", "CAS number not found"] rdkitDemo 2
    (by decide) rfl

/-! ## Claim C10: the PubChem fetch returns structured errors -/

/-- C10: `get_compound_info` returns a structured `{'Error': ...}`
dictionary — never propagating an exception — when the identifier has no
CID mapping (whether `IdentifierList` is absent or carries no `CID`), when
the property response lacks the expected `PropertyTable`/`Properties`
structure, and when a network or JSON-decode failure occurs; every
exception raised inside the `try` body is converted by the handlers into
such a dictionary; and the CLI prints either one `Name: Value` line per
property or a single `Error:` line, never both. -/
theorem pubchem_error_handling :
    (∀ (fetch : String → Except PyExc J) (cas : String) (fs : List (String × J)),
       fetch (cidUrl cas) = .ok (J.obj fs) → fs.lookup "IdentifierList" = none →
       getCompoundInfo fetch cas = errObj s!"CAS number {cas} not found in PubChem")
    ∧ (∀ (fetch : String → Except PyExc J) (cas : String) (fs ifs : List (String × J)),
        fetch (cidUrl cas) = .ok (J.obj fs) →
        fs.lookup "IdentifierList" = some (J.obj ifs) → ifs.lookup "CID" = none →
        getCompoundInfo fetch cas = errObj s!"CAS number {cas} not found in PubChem")
    ∧ (∀ (fetch : String → Except PyExc J) (cas : String) (n : Int) (rest : List J)
         (gs : List (String × J)),
        fetch (cidUrl cas)
          = .ok (J.obj [("IdentifierList", J.obj [("CID", J.arr (J.i n :: rest))])]) →
        fetch (propertiesUrl (J.i n)) = .ok (J.obj gs) →
        gs.lookup "PropertyTable" = none →
        getCompoundInfo fetch cas = errObj s!"Failed to retrieve properties for CID {n}")
    ∧ (∀ (fetch : String → Except PyExc J) (cas m : String),
        fetch (cidUrl cas) = .error (.requestException m) →
        getCompoundInfo fetch cas = errObj s!"Network error: {m}")
    ∧ (∀ (fetch : String → Except PyExc J) (cas : String),
        fetch (cidUrl cas) = .error .jsonDecodeError →
        getCompoundInfo fetch cas = errObj "Failed to parse JSON response")
    ∧ (∀ (fetch : String → Except PyExc J) (cas : String) (e : PyExc),
        getCompoundInfoInner fetch cas = .error e →
        getCompoundInfo fetch cas = errObj (excMessage e))
    ∧ (∀ (fetch : String → Except PyExc J) (cas : String) (fs : List (String × J))
         (out : List String),
        getCompoundInfo fetch cas = J.obj fs → cliMain fetch [cas] = .ok out →
        ((J.obj fs).hasKey "Error" = false ∧ out = fs.map (fun p => formatProperty p.1 p.2))
        ∨ (∃ m, fs.lookup "Error" = some m ∧ out = [errorLine (pyStr m)])) := by
  have hwrap : ∀ (fetch : String → Except PyExc J) (cas : String) (e : PyExc),
      getCompoundInfoInner fetch cas = .error e →
      getCompoundInfo fetch cas = errObj (excMessage e) := by
    intro fetch cas e hint
    rw [getCompoundInfo, hint]
    cases e <;> rfl
  refine ⟨?_, ?_, ?_, ?_, ?_, hwrap, ?_⟩
  · intro fetch cas fs hf hlk
    have hinner : getCompoundInfoInner fetch cas
        = .ok (errObj s!"CAS number {cas} not found in PubChem") := by
      rw [getCompoundInfoInner, hf]
      simp [bind, Except.bind, pure, Except.pure, pyContains, J.hasKey, J.lookup, hlk]
    rw [getCompoundInfo, hinner]
  · intro fetch cas fs ifs hf hlk hcid
    have hinner : getCompoundInfoInner fetch cas
        = .ok (errObj s!"CAS number {cas} not found in PubChem") := by
      rw [getCompoundInfoInner, hf]
      simp [bind, Except.bind, pure, Except.pure, pyContains, pySubscript, J.hasKey,
        J.lookup, hlk, hcid]
    rw [getCompoundInfo, hinner]
  · intro fetch cas n rest gs hf hf2 hpt
    have hinner : getCompoundInfoInner fetch cas
        = .ok (errObj s!"Failed to retrieve properties for CID {n}") := by
      rw [getCompoundInfoInner, hf]
      simp [bind, Except.bind, pure, Except.pure, pyContains, pySubscript, pyIndex0,
        J.hasKey, J.lookup, hf2, hpt, pyStr]
      rfl
    rw [getCompoundInfo, hinner]
  · intro fetch cas m hf
    have hinner : getCompoundInfoInner fetch cas = .error (.requestException m) := by
      rw [getCompoundInfoInner, hf]
      simp [bind, Except.bind]
    rw [hwrap fetch cas _ hinner]
    rfl
  · intro fetch cas hf
    have hinner : getCompoundInfoInner fetch cas = .error .jsonDecodeError := by
      rw [getCompoundInfoInner, hf]
      simp [bind, Except.bind]
    rw [hwrap fetch cas _ hinner]
    rfl
  · intro fetch cas fs out hprops hcli
    rw [cliMain, hprops] at hcli
    by_cases he : (J.obj fs).hasKey "Error" = true
    · right
      have he2 := he
      rw [J.hasKey, J.lookup] at he2
      obtain ⟨m, hm⟩ := Option.isSome_iff_exists.mp he2
      refine ⟨m, hm, ?_⟩
      simp [bind, Except.bind, pure, Except.pure, pyContains, pySubscript, pyItems, J.lookup,
        he, hm] at hcli
      rw [← hcli]
      rfl
    · simp only [Bool.not_eq_true] at he
      simp [bind, Except.bind, pure, Except.pure, pyContains, pyItems, he] at hcli
      left
      exact ⟨he, hcli.symm⟩

/-- Witness for C10: a concrete empty step-1 response yields the NotFound
error dictionary, and a concrete network failure yields the network error
dictionary. -/
theorem pubchem_error_handling_witness :
    getCompoundInfo (fun _ => .ok (J.obj [])) "50-00-0"
      = errObj "CAS number 50-00-0 not found in PubChem"
    ∧ getCompoundInfo (fun _ => .error (.requestException "boom")) "50-00-0"
      = errObj "Network error: boom" := by
  constructor
  · have h := pubchem_error_handling.1 (fun _ => .ok (J.obj [])) "50-00-0" [] rfl rfl
    rw [h]
    exact congrArg errObj (by decide)
  · have h := pubchem_error_handling.2.2.2.1
      (fun _ => .error (.requestException "boom")) "50-00-0" "boom" rfl
    rw [h]
    exact congrArg errObj (by decide)
